import Mathlib

/-!
# TeleBot: a shallow embedding of `src/TeleBot/TeleBot.cpp`

The Arduino `String` is a byte string, modelled as a list of bytes.  The
collaborators that are not part of the repository (the JSON library, the TLS
client, the WiFi driver, the clock) appear as explicit inputs of the functions
that consult them.
-/

set_option maxRecDepth 100000

namespace TelegramESP

/-! ## Byte strings -/

/-- One `char` of an Arduino `String`. -/
abbrev Byte := Fin 256

/-- The Arduino `String`: a sequence of bytes. -/
abbrev Str := List Byte

/-- The byte of an ASCII character literal. -/
def ch (c : Char) : Byte := Fin.ofNat c.toNat

/-- The bytes of an ASCII string literal. -/
def ascii (s : String) : Str := s.data.map ch

/-- C `isalnum` in the "C" locale: the ASCII letters and digits. -/
def isalnum (c : Byte) : Bool :=
  (48 ≤ c.val && c.val ≤ 57) || (65 ≤ c.val && c.val ≤ 90) || (97 ≤ c.val && c.val ≤ 122)

/-- Arduino `String(value, base)` for a non-negative `value`: its digits in
that base, most significant first, letters in lower case (what `itoa`
writes). -/
def stringOfInt (value : Nat) (base : Nat) : Str :=
  (Nat.toDigits base value).map ch

/-- The constant `HEX` of the Arduino core. -/
def HEX : Nat := 16

/-- One pass of the loop body of `TeleBot::_encode`: what is appended to
`encoded` for the byte `c`. -/
def encodeStep (encoded : Str) (c : Byte) : Str :=
  if isalnum c || c == ch '-' || c == ch '_' || c == ch '.' || c == ch '~' then
    encoded ++ [c]
  else if c == ch ' ' then
    encoded ++ [ch '+']
  else
    ((encoded ++ [ch '%']) ++ stringOfInt ((c.val >>> 4) &&& 0xF) HEX)
      ++ stringOfInt (c.val &&& 0xF) HEX

/-- The function `TeleBot::_encode`: the loop over `i = 0 .. str.length() - 1`
that grows `encoded`. -/
def _encode (str : Str) : Str :=
  str.foldl encodeStep []

/-! ## The JSON library (ArduinoJson 6, not part of the repository) -/

/-- A JSON value held in an ArduinoJson document.  Numbers are the integers:
every number this program reads or writes is one. -/
inductive Json where
  | null
  | bool (b : Bool)
  | int (n : Int)
  | str (s : Str)
  | arr (items : List Json)
  | obj (members : List (Str × Json))

/-- The members of a `JsonObject`, in insertion order. -/
abbrev JsonObject := List (Str × Json)

/-- The elements of a `JsonArray`. -/
abbrev JsonArray := List Json

/-- Conversion of a variant to `JsonObject`: a value that is not an object
gives the null object, which has no member. -/
def Json.asObject : Json → JsonObject
  | .obj members => members
  | _ => []

/-- Conversion of a variant to `JsonArray`: a value that is not an array gives
the null array, which has no element. -/
def Json.asArray : Json → JsonArray
  | .arr items => items
  | _ => []

/-- The operator `object[key]` read as a value: the first member with that key,
or null. -/
def JsonObject.get (o : JsonObject) (key : Str) : Json :=
  (o.lookup key).getD Json.null

/-- The method `containsKey(key)`. -/
def JsonObject.containsKey (o : JsonObject) (key : Str) : Bool :=
  (o.lookup key).isSome

/-- The comparison `variant == true`: equal only for the boolean `true`. -/
def Json.isTrue : Json → Bool
  | .bool b => b
  | _ => false

/-- The least value of the 32-bit `long` of the ESP32. -/
def LONG_MIN : Int := -2147483648

/-- The greatest value of the 32-bit `long` of the ESP32. -/
def LONG_MAX : Int := 2147483647

/-- The services of the JSON library this program consumes without showing
their code: the parser, the serializer and the text-to-number conversion. -/
structure ArduinoJson where
  /-- The call `deserializeJson(doc, input)` on a document of the given
  capacity in bytes: the document, or the text of the error. -/
  deserializeJson : Nat → Str → Except Str Json
  /-- The call `serializeJson(doc, output)`: the text written to `output`. -/
  serializeJson : Json → Str
  /-- The number a JSON string converts to when it is read as an integer. -/
  parseNumber : Str → Int

/-- The conversion `variant.as<long>()` (also the implicit conversion in
`long x = variant;`): an integer in range is itself, out of range it is 0. -/
def ArduinoJson.asLong (lib : ArduinoJson) : Json → Int
  | .int n => if LONG_MIN ≤ n ∧ n ≤ LONG_MAX then n else 0
  | .bool b => if b then 1 else 0
  | .str s => lib.parseNumber s
  | _ => 0

/-- The conversion `variant.as<String>()`: a string is itself, any other value
is its serialization. -/
def ArduinoJson.asString (lib : ArduinoJson) : Json → Str
  | .str s => s
  | v => lib.serializeJson v

/-! ### Building a document in a bounded pool -/

/-- Bytes one array element or object member takes from the pool
(`sizeof(VariantSlot)` on the 32-bit ESP32). -/
def SLOT_SIZE : Nat := 16

/-- The memory pool of a `DynamicJsonDocument`: slots and copied strings share
`capacity` bytes; a string already copied is not copied again. -/
structure MemoryPool where
  capacity : Nat
  used : Nat
  strings : List Str

/-- The pool of `DynamicJsonDocument doc(capacity)`. -/
def MemoryPool.create (capacity : Nat) : MemoryPool :=
  ⟨capacity, 0, []⟩

/-- Allocation of one slot; `none` when it does not fit. -/
def MemoryPool.allocVariant (pool : MemoryPool) : Option MemoryPool :=
  if pool.used + SLOT_SIZE ≤ pool.capacity then
    some { pool with used := pool.used + SLOT_SIZE }
  else none

/-- Copy of a `String` with its terminator into the pool; `none` when it does
not fit. -/
def MemoryPool.saveString (pool : MemoryPool) (s : Str) : Option MemoryPool :=
  if s ∈ pool.strings then some pool
  else if pool.used + (s.length + 1) ≤ pool.capacity then
    some { pool with used := pool.used + (s.length + 1), strings := s :: pool.strings }
  else none

/-- The assignment `object[key] = value` for a value stored in the slot itself
(a boolean, or a string literal, which is linked and not copied), on a fresh
key.  A null object ignores it; a member that finds no slot is dropped. -/
def setMember (pool : MemoryPool) (object : Option JsonObject) (key : Str) (value : Json) :
    MemoryPool × Option JsonObject :=
  match object with
  | none => (pool, none)
  | some members =>
    match pool.allocVariant with
    | none => (pool, some members)
    | some pool1 => (pool1, some (members ++ [(key, value)]))

/-- The assignment `object[key] = value` for an Arduino `String` on a fresh
key: a slot, then a copy of the text.  A null object ignores it; without a slot
the member is dropped; without room for the text the member stays null. -/
def setMemberString (pool : MemoryPool) (object : Option JsonObject) (key : Str) (value : Str) :
    MemoryPool × Option JsonObject :=
  match object with
  | none => (pool, none)
  | some members =>
    match pool.allocVariant with
    | none => (pool, some members)
    | some pool1 =>
      match pool1.saveString value with
      | none => (pool1, some (members ++ [(key, Json.null)]))
      | some pool2 => (pool2, some (members ++ [(key, Json.str value)]))

/-- The call `array.add(value)` for an Arduino `String`. -/
def addString (pool : MemoryPool) (array : Option JsonArray) (value : Str) :
    MemoryPool × Option JsonArray :=
  match array with
  | none => (pool, none)
  | some items =>
    match pool.allocVariant with
    | none => (pool, some items)
    | some pool1 =>
      match pool1.saveString value with
      | none => (pool1, some (items ++ [Json.null]))
      | some pool2 => (pool2, some (items ++ [Json.str value]))

/-- The calls `createNestedArray()` and `createNestedObject()` on an array (and
`createNestedArray(key)` on the document): the pool afterwards and whether the
new container is bound. -/
def createNested (pool : MemoryPool) (parentBound : Bool) : MemoryPool × Bool :=
  if parentBound then
    match pool.allocVariant with
    | none => (pool, false)
    | some pool1 => (pool1, true)
  else (pool, false)

/-! ## Keyboards -/

/-- One pass of the loop of `TeleBot::createKey` for the row `keys[i]`:
`keyboard.createNestedArray()`, `row.add(keys[i][0])` and, for a second label
that is not empty, `row.add(keys[i][1])`. -/
def createKeyStep (keyboardBound : Bool) (acc : MemoryPool × List Json) (key : Str × Str) :
    MemoryPool × List Json :=
  let (pool1, rowBound) := createNested acc.1 keyboardBound
  let (pool2, row) := addString pool1 (if rowBound then some [] else none) key.1
  let (pool3, row1) := if key.2.length > 0 then addString pool2 row key.2 else (pool2, row)
  (pool3, match row1 with
    | some items => acc.2 ++ [Json.arr items]
    | none => acc.2)

/-- The document `TeleBot::createKey` serializes; `keys` are the first `rows`
rows of the array argument. -/
def createKeyDoc (keys : List (Str × Str)) (resize once : Bool) : Json :=
  let (pool1, keyboardBound) := createNested (MemoryPool.create 1024) true
  let (pool2, rowsBuilt) := keys.foldl (createKeyStep keyboardBound) (pool1, [])
  let root : JsonObject := if keyboardBound then [(ascii "keyboard", Json.arr rowsBuilt)] else []
  let (pool3, root1) := setMember pool2 (some root) (ascii "resize_keyboard") (Json.bool resize)
  let (_, root2) := setMember pool3 root1 (ascii "one_time_keyboard") (Json.bool once)
  Json.obj (root2.getD [])

/-- The function `TeleBot::createKey`. -/
def createKey (lib : ArduinoJson) (keys : List (Str × Str)) (resize once : Bool) : Str :=
  lib.serializeJson (createKeyDoc keys resize once)

/-- One pass of the loop of `TeleBot::createIn` for the row `keys[i]`, which is
`(keys[i][0], keys[i][1], keys[i][2])`. -/
def createInStep (keyboardBound : Bool) (acc : MemoryPool × List Json) (key : Str × Str × Str) :
    MemoryPool × List Json :=
  let (pool1, rowBound) := createNested acc.1 keyboardBound
  let (pool2, btnBound) := createNested pool1 rowBound
  let (pool3, btn) := setMemberString pool2 (if btnBound then some [] else none) (ascii "text") key.1
  let (pool4, btn1) := setMemberString pool3 btn (ascii "callback_data") key.2.1
  let (pool5, btn2) :=
    if key.2.2.length > 0 then setMemberString pool4 btn1 (ascii "url") key.2.2 else (pool4, btn1)
  (pool5, if rowBound then
      acc.2 ++ [Json.arr (match btn2 with
        | some members => [Json.obj members]
        | none => [])]
    else acc.2)

/-- The text of the delete button, the UTF-8 bytes of the literal in the
source (a cross mark, a space and the Russian word for "delete"). -/
def deleteLabel : Str :=
  [226, 157, 140, 32, 208, 163, 208, 180, 208, 176, 208, 187, 208, 184, 209, 130, 209, 140]

/-- The block of `TeleBot::createIn` guarded by `delBtn`. -/
def createInDelete (keyboardBound : Bool) (acc : MemoryPool × List Json) :
    MemoryPool × List Json :=
  let (pool1, rowBound) := createNested acc.1 keyboardBound
  let (pool2, btnBound) := createNested pool1 rowBound
  let (pool3, btn) := setMember pool2 (if btnBound then some [] else none) (ascii "text")
    (Json.str deleteLabel)
  let (pool4, btn1) := setMember pool3 btn (ascii "callback_data") (Json.str (ascii "delete"))
  (pool4, if rowBound then
      acc.2 ++ [Json.arr (match btn1 with
        | some members => [Json.obj members]
        | none => [])]
    else acc.2)

/-- The document `TeleBot::createIn` serializes; `keys` are the first `rows`
rows of the array argument. -/
def createInDoc (keys : List (Str × Str × Str)) (delBtn : Bool) : Json :=
  let (pool1, keyboardBound) := createNested (MemoryPool.create 1024) true
  let built := keys.foldl (createInStep keyboardBound) (pool1, [])
  let built1 := if delBtn then createInDelete keyboardBound built else built
  Json.obj (if keyboardBound then [(ascii "inline_keyboard", Json.arr built1.2)] else [])

/-- The function `TeleBot::createIn`. -/
def createIn (lib : ArduinoJson) (keys : List (Str × Str × Str)) (delBtn : Bool) : Str :=
  lib.serializeJson (createInDoc keys delBtn)

/-! ## The bot object -/

/-- The enumeration `WiFiStat`. -/
inductive WiFiStat where
  | WIFI_OFF
  | WIFI_CONNECTING
  | WIFI_ON
  | WIFI_ERROR
deriving DecidableEq, Repr

/-- The structure `WiFiConf`; `timeout` is a 32-bit `int`, a `hostname` of
`none` is the null pointer, an address is its 32-bit value. -/
structure WiFiConf where
  ssid : Str
  password : Str
  hostname : Option Str := none
  timeout : Int := 20000
  staticIP : Bool := false
  ip : Nat := 0
  gateway : Nat := 0
  subnet : Nat := 0
  dns1 : Nat := 0
  dns2 : Nat := 0
deriving DecidableEq, Repr

/-- The structure `Msg`. -/
structure Msg where
  chat_id : Int
  text : Str
  user : Str
  name : Str
  msg_id : Int
  is_inline : Bool
  inline_data : Str
  inline_id : Str
deriving DecidableEq, Repr

/-- A function pointer (`MsgHandler`, `WiFiHandler`): its address, 0 for
`NULL`. -/
abbrev Handler := Nat

/-- The null pointer. -/
def NULL : Handler := 0

/-- The structure `TeleBot::ComHandler`. -/
structure ComHandler where
  command : Str
  handler : Handler
deriving DecidableEq, Repr

/-- The data members of the class `TeleBot` this development reads or writes,
with the initial values of the header.  `unsigned long` members hold values
below `2 ^ 32`; `_comHandlers` is the array of 15 slots. -/
structure TeleBot where
  _token : Str
  _lastCheck : Nat := 0
  _checkTime : Nat := 1000
  _lastID : Int := 0
  _debug : Bool := false
  _useDNS : Bool := true
  _error : Str := []
  _wifiConf : WiFiConf := ⟨[], [], none, 20000, false, 0, 0, 0, 0, 0⟩
  _wifiStat : WiFiStat := WiFiStat.WIFI_OFF
  _wifiHandler : Handler := NULL
  _lastTry : Nat := 0
  _autoReconnect : Bool := true
  _reconnectTime : Nat := 30000
  _msgHandler : Handler := NULL
  _comHandlers : List ComHandler := List.replicate 15 ⟨[], NULL⟩
  _comCount : Nat := 0
  _inlineHandler : Handler := NULL
deriving DecidableEq, Repr

/-- The call site through which a handler is invoked. -/
inductive Site where
  /-- The call `_comHandlers[i].handler(msg)`. -/
  | command (i : Nat)
  /-- The call `_msgHandler(msg)`. -/
  | message
  /-- The call `_inlineHandler(msg)`. -/
  | inline
deriving DecidableEq, Repr

/-- One invocation of a user handler: the call site, the function called and
its argument. -/
structure Call where
  site : Site
  fn : Handler
  msg : Msg
deriving DecidableEq, Repr

/-- The method `TeleBot::on`. -/
def TeleBot.on (self : TeleBot) (handler : Handler) : TeleBot :=
  { self with _msgHandler := handler }

/-- The method `TeleBot::com`. -/
def com (self : TeleBot) (command : Str) (handler : Handler) : TeleBot :=
  if self._comCount < 15 then
    { self with
      _comHandlers := self._comHandlers.set self._comCount ⟨command, handler⟩
      _comCount := self._comCount + 1 }
  else self

/-- The method `TeleBot::inl`. -/
def inl (self : TeleBot) (handler : Handler) : TeleBot :=
  { self with _inlineHandler := handler }

/-- The method `TeleBot::lastError`. -/
def lastError (self : TeleBot) : Str := self._error

/-- The method `TeleBot::lastUpdate`. -/
def lastUpdate (self : TeleBot) : Int := self._lastID

/-- The method `TeleBot::wifiStatus`. -/
def wifiStatus (self : TeleBot) : WiFiStat := self._wifiStat

/-! ## Dispatch -/

/-- Arduino `String::startsWith`. -/
def startsWith (s s2 : Str) : Bool :=
  if s.length < s2.length then false else s.take s2.length == s2

/-- Arduino `String::indexOf(char)`: the position of the first occurrence, or
-1. -/
def indexOf (s : Str) (c : Byte) : Int :=
  match s.findIdx? (fun b => b == c) with
  | some i => (i : Int)
  | none => -1

/-- Arduino `String::substring(left, right)`. -/
def substring (s : Str) (left right : Nat) : Str :=
  let l := if left > right then right else left
  let r := if left > right then left else right
  if l ≥ s.length then []
  else (s.take (if r > s.length then s.length else r)).drop l

/-- The byte of the space character. -/
def SPACE : Byte := ch ' '

/-- The command searched in the table for a text that starts with "/". -/
def commandOf (text : Str) : Str :=
  let spacePos := indexOf text SPACE
  if spacePos > 0 then substring text 0 spacePos.toNat else text

/-- The `for` loop of `TeleBot::_processMsg`: the first index below `_comCount`
whose command equals `command`. -/
def findCommand (self : TeleBot) (command : Str) : Option Nat :=
  (List.range self._comCount).find?
    (fun i => (self._comHandlers.getD i ⟨[], NULL⟩).command == command)

/-- The message `TeleBot::_processMsg` builds from the "message" object. -/
def msgOfMessage (lib : ArduinoJson) (msgObj : JsonObject) : Msg :=
  { chat_id := lib.asLong ((msgObj.get (ascii "chat")).asObject.get (ascii "id"))
    msg_id := lib.asLong (msgObj.get (ascii "message_id"))
    is_inline := false
    text := if msgObj.containsKey (ascii "text") then lib.asString (msgObj.get (ascii "text")) else []
    user :=
      if (msgObj.get (ascii "from")).asObject.containsKey (ascii "username") then
        lib.asString ((msgObj.get (ascii "from")).asObject.get (ascii "username"))
      else []
    name :=
      if (msgObj.get (ascii "from")).asObject.containsKey (ascii "first_name") then
        lib.asString ((msgObj.get (ascii "from")).asObject.get (ascii "first_name"))
      else []
    inline_data := []
    inline_id := [] }

/-- The method `TeleBot::_processMsg`: the handler calls it makes, in order. -/
def _processMsg (lib : ArduinoJson) (self : TeleBot) (msgObj : JsonObject) : List Call :=
  let msg := msgOfMessage lib msgObj
  let found := if startsWith msg.text (ascii "/") then findCommand self (commandOf msg.text) else none
  match found with
  | some i => [⟨Site.command i, (self._comHandlers.getD i ⟨[], NULL⟩).handler, msg⟩]
  | none => if self._msgHandler != NULL then [⟨Site.message, self._msgHandler, msg⟩] else []

/-- The message `TeleBot::_processInline` builds from the "callback_query"
object. -/
def msgOfInline (lib : ArduinoJson) (inlineObj : JsonObject) : Msg :=
  { chat_id :=
      lib.asLong (((inlineObj.get (ascii "message")).asObject.get (ascii "chat")).asObject.get
        (ascii "id"))
    msg_id := lib.asLong ((inlineObj.get (ascii "message")).asObject.get (ascii "message_id"))
    is_inline := true
    inline_id := lib.asString (inlineObj.get (ascii "id"))
    inline_data := lib.asString (inlineObj.get (ascii "data"))
    user :=
      if (inlineObj.get (ascii "from")).asObject.containsKey (ascii "username") then
        lib.asString ((inlineObj.get (ascii "from")).asObject.get (ascii "username"))
      else []
    name :=
      if (inlineObj.get (ascii "from")).asObject.containsKey (ascii "first_name") then
        lib.asString ((inlineObj.get (ascii "from")).asObject.get (ascii "first_name"))
      else []
    text := [] }

/-- The method `TeleBot::_processInline`. -/
def _processInline (lib : ArduinoJson) (self : TeleBot) (inlineObj : JsonObject) : List Call :=
  if self._inlineHandler != NULL then
    [⟨Site.inline, self._inlineHandler, msgOfInline lib inlineObj⟩]
  else []

/-- The method `TeleBot::_process`. -/
def _process (lib : ArduinoJson) (self : TeleBot) (update : JsonObject) : List Call :=
  if update.containsKey (ascii "message") then
    _processMsg lib self (update.get (ascii "message")).asObject
  else if update.containsKey (ascii "callback_query") then
    _processInline lib self (update.get (ascii "callback_query")).asObject
  else []

/-! ## Requests -/

/-- The modulus of `unsigned long` arithmetic on the ESP32. -/
def U32 : Nat := 4294967296

/-- The difference `a - b` of two `unsigned long` values. -/
def subU32 (a b : Nat) : Nat := (a % U32 + U32 - b % U32) % U32

/-- The value of a 32-bit `int` converted to `unsigned long`. -/
def toU32 (x : Int) : Nat := (x % 4294967296).toNat

/-- The sum `a + b` of two `long` values, wrapping at 32 bits. -/
def addLong (a b : Int) : Int := (a + b - LONG_MIN) % 4294967296 + LONG_MIN

/-- Arduino `String(value)` for a `long`: its decimal digits, with a sign when
negative. -/
def stringOfLong (value : Int) : Str :=
  if value < 0 then ch '-' :: stringOfInt value.natAbs 10 else stringOfInt value.toNat 10

/-- The macro `MAX_MSG_SIZE` of the header. -/
def MAX_MSG_SIZE : Nat := 4096

/-- The line feed, the terminator given to `readStringUntil`. -/
def LF : Byte := 10

/-- The carriage return. -/
def CR : Byte := 13

/-- What the TLS client does during one exchange: whether `connect` succeeds,
and the bytes it then makes available (none when the five-second budget runs
out without data). -/
structure Client where
  connect : Bool
  incoming : Str
deriving DecidableEq, Repr

/-- The two read loops shared by `_request` and `_getUpdates`.  `line` is what
`readStringUntil` has read of the current line.  The first loop drops lines up
to and including the first one equal to a lone carriage return; the second
loop reads what is left, which is the result. -/
def readBody : Str → Str → Str
  | _, [] => []
  | line, c :: rest =>
    if c = LF then
      if line = [CR] then rest else readBody [] rest
    else readBody (line ++ [c]) rest

/-- The result of `TeleBot::_request`: the value returned, the `response`
argument afterwards and what was written to the client. -/
structure Reply where
  ok : Bool
  response : Str
  written : List Str
deriving DecidableEq, Repr

/-- The method `TeleBot::_request`; `response` is the caller's variable as it
is before the call. -/
def _request (lib : ArduinoJson) (self : TeleBot) (client : Client)
    (method params response : Str) : Reply :=
  if !client.connect then ⟨false, response, []⟩
  else
    let req := ascii "POST /bot" ++ self._token ++ ascii "/" ++ method ++ ascii " HTTP/1.1\r\n"
      ++ ascii "Host: api.telegram.org\r\n"
      ++ ascii "Content-Type: application/x-www-form-urlencoded\r\n"
      ++ (ascii "Content-Length: " ++ stringOfInt params.length 10 ++ ascii "\r\n")
      ++ ascii "Connection: close\r\n\r\n"
      ++ params
    let body := readBody [] client.incoming
    match lib.deserializeJson 512 body with
    | .ok doc => ⟨(doc.asObject.get (ascii "ok")).isTrue, body, [req]⟩
    | .error _ => ⟨false, body, [req]⟩

/-- The result of `TeleBot::_getUpdates`: the object afterwards, the string
returned and what was written to the client. -/
structure Polled where
  bot : TeleBot
  response : Str
  written : List Str
deriving DecidableEq, Repr

/-- The request path `TeleBot::_getUpdates` builds. -/
def getUpdatesUrl (self : TeleBot) : Str :=
  let url := ascii "/bot" ++ self._token ++ ascii "/getUpdates?timeout=5"
  if self._lastID > 0 then url ++ (ascii "&offset=" ++ stringOfLong (addLong self._lastID 1))
  else url

/-- One pass of the loop of `TeleBot::_getUpdates` over the result list: the
value of `_lastID` afterwards. -/
def cursorStep (lib : ArduinoJson) (lastID : Int) (update : Json) : Int :=
  let update_id := lib.asLong (update.asObject.get (ascii "update_id"))
  if update_id > lastID then update_id else lastID

/-- The method `TeleBot::_getUpdates`. -/
def _getUpdates (lib : ArduinoJson) (self : TeleBot) (client : Client) : Polled :=
  if client.connect then
    let written := [ascii "GET " ++ getUpdatesUrl self ++ ascii " HTTP/1.1" ++ ascii "\r\n",
      ascii "Host: api.telegram.org" ++ ascii "\r\n",
      ascii "Connection: close" ++ ascii "\r\n",
      ascii "\r\n"]
    let response := readBody [] client.incoming
    match lib.deserializeJson 1024 response with
    | .ok doc =>
      let results := (doc.asObject.get (ascii "result")).asArray
      ⟨{ self with _lastID := results.foldl (cursorStep lib) self._lastID }, response, written⟩
    | .error _ => ⟨self, response, written⟩
  else ⟨self, [], []⟩

/-! ## The control loop -/

/-- What one call of `loop()` observes: the two `isWiFi()` checks, the clock,
and the client of the poll. -/
structure Tick where
  /-- The result of `isWiFi()` in the auto-reconnect test. -/
  linkFirst : Bool
  /-- The result of `isWiFi()` in the polling test. -/
  linkSecond : Bool
  /-- The reading of `millis()`. -/
  now : Nat
  client : Client
deriving DecidableEq, Repr

/-- What one call of `loop()` does: the object afterwards, whether
`WiFi.reconnect()` was called, what was written to the client and the handler
calls in order. -/
structure Outcome where
  bot : TeleBot
  reconnect : Bool
  written : List Str
  calls : List Call
deriving DecidableEq, Repr

/-- The method `TeleBot::loop`.  Handlers are user code: their calls are
recorded, and they are taken not to call back into the object while the batch
is dispatched. -/
def loop (lib : ArduinoJson) (self : TeleBot) (env : Tick) : Outcome :=
  if self._autoReconnect && !env.linkFirst then
    if subU32 env.now self._lastTry > self._reconnectTime then
      ⟨{ self with _lastTry := env.now }, true, [], []⟩
    else ⟨self, false, [], []⟩
  else if env.linkSecond then
    if subU32 env.now self._lastCheck > self._checkTime then
      let polled := _getUpdates lib self env.client
      let bot1 := { polled.bot with _lastCheck := env.now }
      if polled.response.length > 0 then
        match lib.deserializeJson MAX_MSG_SIZE polled.response with
        | .ok doc =>
          let result := (doc.asObject.get (ascii "result")).asArray
          ⟨bot1, false, polled.written,
            (result.map (fun update => _process lib bot1 update.asObject)).flatten⟩
        | .error e =>
          if bot1._debug then
            ⟨{ bot1 with _error := ascii "JSON error: " ++ e }, false, polled.written, []⟩
          else ⟨bot1, false, polled.written, []⟩
      else ⟨bot1, false, polled.written, []⟩
    else ⟨self, false, [], []⟩
  else ⟨self, false, [], []⟩

/-! ## The wireless link -/

/-- What the WiFi driver and the clock answer during one call of `conWiFi`:
the result of `WiFi.config`, the answer of the `k`-th call of `WiFi.status()`
(true for `WL_CONNECTED`) and the reading of the `k`-th call of `millis()`. -/
structure Radio where
  configOk : Bool
  status : Nat → Bool
  millis : Nat → Nat

/-- The method `TeleBot::_setWiFiStat`: the object afterwards and the states
passed to the observer. -/
def _setWiFiStat (self : TeleBot) (status : WiFiStat) : TeleBot × List WiFiStat :=
  ({ self with _wifiStat := status }, if self._wifiHandler != NULL then [status] else [])

/-- The method `TeleBot::_setStaticIP`. -/
def _setStaticIP (radio : Radio) : Bool :=
  if !radio.configOk then false else true

/-- The wait loop of `conWiFi`, entered at its `k`-th test: the index of the
test that ends it, or `none` when the fuel runs out first. -/
def waitLink (radio : Radio) (start timeout : Nat) : Nat → Nat → Option Nat
  | 0, _ => none
  | fuel + 1, k =>
    if !radio.status k && decide (subU32 (radio.millis (k + 1)) start < timeout) then
      waitLink radio start timeout fuel (k + 1)
    else some k

/-- The result of `conWiFi`: the object afterwards, the value returned, the
states passed to the observer in order and whether `WiFi.begin` was called. -/
structure Joined where
  bot : TeleBot
  result : Bool
  notified : List WiFiStat
  begun : Bool
deriving DecidableEq, Repr

/-- The method `TeleBot::conWiFi(WiFiConf&)`, with `fuel` passes of the wait
loop at most. -/
def conWiFi (self : TeleBot) (conf : WiFiConf) (radio : Radio) (fuel : Nat) : Option Joined :=
  let connecting := _setWiFiStat { self with _wifiConf := conf } WiFiStat.WIFI_CONNECTING
  if conf.staticIP && !_setStaticIP radio then
    let failed := _setWiFiStat connecting.1 WiFiStat.WIFI_ERROR
    some ⟨{ failed.1 with _error := ascii "Static IP error" }, false,
      connecting.2 ++ failed.2, false⟩
  else
    match waitLink radio (radio.millis 0) (toU32 conf.timeout) fuel 0 with
    | none => none
    | some k =>
      if radio.status (k + 1) then
        let up := _setWiFiStat connecting.1 WiFiStat.WIFI_ON
        some ⟨up.1, true, connecting.2 ++ up.2, true⟩
      else
        let failed := _setWiFiStat connecting.1 WiFiStat.WIFI_ERROR
        some ⟨{ failed.1 with _error := ascii "WiFi timeout" }, false,
          connecting.2 ++ failed.2, true⟩

/-! ## A scripted instance of the JSON library

Used to run the definitions on concrete inputs. -/

/-- The escape sequence the serializer writes for a byte of a string. -/
def escapeByte (b : Byte) : Str :=
  if b = ch '"' then [ch '\\', ch '"']
  else if b = ch '\\' then [ch '\\', ch '\\']
  else if b = LF then [ch '\\', ch 'n']
  else if b = CR then [ch '\\', ch 'r']
  else if b = 9 then [ch '\\', ch 't']
  else if b = 8 then [ch '\\', ch 'b']
  else if b = 12 then [ch '\\', ch 'f']
  else [b]

/-- A string between double quotes, escaped. -/
def quoted (s : Str) : Str :=
  ch '"' :: (s.map escapeByte).flatten ++ [ch '"']

mutual
/-- Compact JSON text of a value. -/
def render : Json → Str
  | .null => ascii "null"
  | .bool b => if b then ascii "true" else ascii "false"
  | .int n => stringOfLong n
  | .str s => quoted s
  | .arr items => ch '[' :: renderItems items ++ [ch ']']
  | .obj members => 123 :: renderMembers members ++ [125]
/-- The elements of an array, separated by commas. -/
def renderItems : List Json → Str
  | [] => []
  | [v] => render v
  | v :: w :: rest => render v ++ ch ',' :: renderItems (w :: rest)
/-- The members of an object, separated by commas. -/
def renderMembers : List (Str × Json) → Str
  | [] => []
  | [(k, v)] => quoted k ++ ch ':' :: render v
  | (k, v) :: m :: rest => quoted k ++ ch ':' :: render v ++ ch ',' :: renderMembers (m :: rest)
end

mutual
/-- The number of slots a value takes in a pool, its own slot apart. -/
def slotCount : Json → Nat
  | .arr items => slotCountItems items
  | .obj members => slotCountMembers members
  | _ => 0
/-- The slots of the elements of an array. -/
def slotCountItems : List Json → Nat
  | [] => 0
  | v :: rest => 1 + slotCount v + slotCountItems rest
/-- The slots of the members of an object. -/
def slotCountMembers : List (Str × Json) → Nat
  | [] => 0
  | (_, v) :: rest => 1 + slotCount v + slotCountMembers rest
end

mutual
/-- The strings of a value, keys included. -/
def stringsOf : Json → List Str
  | .str s => [s]
  | .arr items => stringsOfItems items
  | .obj members => stringsOfMembers members
  | _ => []
/-- The strings of the elements of an array. -/
def stringsOfItems : List Json → List Str
  | [] => []
  | v :: rest => stringsOf v ++ stringsOfItems rest
/-- The strings of the members of an object. -/
def stringsOfMembers : List (Str × Json) → List Str
  | [] => []
  | (k, v) :: rest => k :: stringsOf v ++ stringsOfMembers rest
end

/-- The bytes a parsed document takes in a pool: its slots, and one copy of
each distinct string with its terminator. -/
def memoryUsage (doc : Json) : Nat :=
  SLOT_SIZE * slotCount doc + (((stringsOf doc).dedup).map (fun s => s.length + 1)).sum

/-- A library instance whose parser knows the bodies of `table`: a listed body
parses to its document when the document fits the capacity; the serializer
writes compact JSON. -/
def scriptedJson (table : List (Str × Json)) : ArduinoJson where
  deserializeJson capacity input :=
    if input = [] then .error (ascii "EmptyInput")
    else
      match table.lookup input with
      | some doc => if memoryUsage doc ≤ capacity then .ok doc else .error (ascii "NoMemory")
      | none => .error (ascii "InvalidInput")
  serializeJson := render
  parseNumber := fun _ => 0

/-! ## Notions of the specification -/

/-- The update ids of a decoded poll body, in order: what the poller reads as
the `long` value of `update["update_id"]` for each element of
`doc["result"]`. -/
def updateIds (lib : ArduinoJson) (doc : Json) : List Int :=
  ((doc.asObject.get (ascii "result")).asArray).map
    (fun update => lib.asLong (update.asObject.get (ascii "update_id")))

/-- The object after a sequence of polls, one client exchange each. -/
def polls (lib : ArduinoJson) (self : TeleBot) (clients : List Client) : TeleBot :=
  clients.foldl (fun bot client => (_getUpdates lib bot client).bot) self

/-! ### Sample data -/

/-- A poll body with two updates, ids 7 and 5. -/
def pollBody : Str :=
  ascii "\x7b\"ok\":true,\"result\":[\x7b\"update_id\":7\x7d,\x7b\"update_id\":5\x7d]\x7d"

/-- The document of `pollBody`. -/
def pollDoc : Json :=
  Json.obj [(ascii "ok", Json.bool true),
    (ascii "result", Json.arr [Json.obj [(ascii "update_id", Json.int 7)],
      Json.obj [(ascii "update_id", Json.int 5)]])]

/-- An HTTP response: a status line, one header, the empty line, a body. -/
def httpReply (body : Str) : Str :=
  ascii "HTTP/1.1 200 OK\r\nContent-Type: application/json\r\n\r\n" ++ body

/-- The library instance of the examples. -/
def sampleJson : ArduinoJson :=
  scriptedJson [(pollBody, pollDoc), (ascii "\x7b\"ok\":true\x7d", Json.obj [(ascii "ok", Json.bool true)])]

/-- A bot object as constructed, with cursor 6. -/
def sampleBot : TeleBot :=
  { _token := ascii "123:abc", _lastID := 6 }

/-- A "message" object with the given text, from chat 42. -/
def textMessage (text : Str) : JsonObject :=
  [(ascii "message_id", Json.int 9),
    (ascii "chat", Json.obj [(ascii "id", Json.int 42)]),
    (ascii "text", Json.str text)]

/-- The sample bot after `com("/start", 101)`, `com("/help", 102)`, `on(103)`
and `inl(104)`; the numbers stand for four distinct functions. -/
def commandBot : TeleBot :=
  inl ((com (com sampleBot (ascii "/start") 101) (ascii "/help") 102).on 103) 104

/-- An update that carries a "callback_query" object with the given payload
and no "message". -/
def callbackUpdate (payload : Str) : JsonObject :=
  [(ascii "update_id", Json.int 11),
    (ascii "callback_query",
      Json.obj [(ascii "id", Json.str (ascii "q1")), (ascii "data", Json.str payload)])]

/-! ### Keyboards as the specification words them -/

/-- The row of an inline keyboard for `(label, callback, url)`: one button,
with a url field exactly when the url is not empty. -/
def buttonRow (key : Str × Str × Str) : Json :=
  Json.arr [Json.obj ([(ascii "text", Json.str key.1), (ascii "callback_data", Json.str key.2.1)]
    ++ (if key.2.2 = [] then [] else [(ascii "url", Json.str key.2.2)]))]

/-- The row of the fixed delete button. -/
def deleteRow : Json :=
  Json.arr [Json.obj [(ascii "text", Json.str deleteLabel),
    (ascii "callback_data", Json.str (ascii "delete"))]]

/-- The inline keyboard of the given rows, with the delete row last when
asked for. -/
def inlineMarkup (keys : List (Str × Str × Str)) (delBtn : Bool) : Json :=
  Json.obj [(ascii "inline_keyboard",
    Json.arr (keys.map buttonRow ++ (if delBtn then [deleteRow] else [])))]

/-- The rows of the "inline_keyboard" array of a document. -/
def inlineRows (doc : Json) : List Json :=
  (doc.asObject.get (ascii "inline_keyboard")).asArray

/-- Pool bytes of one row of `createIn`: the row, the button and two or three
members with their texts. -/
def buttonRowCost (key : Str × Str × Str) : Nat :=
  2 * SLOT_SIZE + (SLOT_SIZE + (key.1.length + 1)) + (SLOT_SIZE + (key.2.1.length + 1))
    + (if key.2.2 = [] then 0 else SLOT_SIZE + (key.2.2.length + 1))

/-- Pool bytes of the whole document of `createIn`, each text counted as a
copy of its own. -/
def inlineCost (keys : List (Str × Str × Str)) (delBtn : Bool) : Nat :=
  SLOT_SIZE + (keys.map buttonRowCost).sum + (if delBtn then 4 * SLOT_SIZE else 0)

/-- The row of a reply keyboard for two labels: the second is left out when
empty. -/
def labelRow (key : Str × Str) : Json :=
  Json.arr (Json.str key.1 :: (if key.2 = [] then [] else [Json.str key.2]))

/-- The reply keyboard of the given rows and flags. -/
def replyMarkup (keys : List (Str × Str)) (resize once : Bool) : Json :=
  Json.obj [(ascii "keyboard", Json.arr (keys.map labelRow)),
    (ascii "resize_keyboard", Json.bool resize),
    (ascii "one_time_keyboard", Json.bool once)]

/-- Pool bytes of one row of `createKey`. -/
def labelRowCost (key : Str × Str) : Nat :=
  SLOT_SIZE + (SLOT_SIZE + (key.1.length + 1))
    + (if key.2 = [] then 0 else SLOT_SIZE + (key.2.length + 1))

/-- Pool bytes of the whole document of `createKey`, each text counted as a
copy of its own. -/
def replyCost (keys : List (Str × Str)) : Nat :=
  SLOT_SIZE + (keys.map labelRowCost).sum + 2 * SLOT_SIZE

/-- The rows Yes/y and No/n, without url. -/
def yesNoKeys : List (Str × Str × Str) :=
  [(ascii "Yes", ascii "y", []), (ascii "No", ascii "n", [])]

/-- Forty rows Item/item, without url. -/
def fortyKeys : List (Str × Str × Str) :=
  List.replicate 40 (ascii "Item", ascii "item", [])

/-- Forty rows with the single label Item. -/
def fortyLabels : List (Str × Str) :=
  List.replicate 40 (ascii "Item", [])

/-- The rows of the "keyboard" array of a document. -/
def keyboardRows (doc : Json) : List Json :=
  (doc.asObject.get (ascii "keyboard")).asArray

/-! ### The wait of `conWiFi` as the specification words it -/

/-- Milliseconds elapsed at the `j`-th clock reading after `start`, as the
wait loop computes them. -/
def elapsed (radio : Radio) (j : Nat) : Nat :=
  subU32 (radio.millis j) (radio.millis 0)

/-- The link has not reported connected and the timeout has not elapsed at the
test number `j` of the wait loop. -/
def stillWaiting (conf : WiFiConf) (radio : Radio) (j : Nat) : Prop :=
  radio.status j = false ∧ elapsed radio (j + 1) < toU32 conf.timeout

instance (conf : WiFiConf) (radio : Radio) (j : Nat) : Decidable (stillWaiting conf radio j) := by
  unfold stillWaiting; infer_instance

/-- The configuration of the examples: dynamic addressing, the default
timeout of 20000 ms. -/
def homeConf : WiFiConf := { ssid := ascii "home", password := ascii "secret" }

/-- A radio whose link comes up at the third status check, with a clock that
advances by 500 ms per reading. -/
def radioUp : Radio := ⟨true, fun k => decide (3 ≤ k), fun k => 7000 + 500 * k⟩

/-- A radio whose link never comes up and which rejects static addressing. -/
def radioDown : Radio := ⟨false, fun _ => false, fun k => 7000 + 500 * k⟩

/-- A bot object with a status observer registered. -/
def observedBot : TeleBot :=
  { sampleBot with _wifiHandler := 77 }

/-! ### Runs of the control loop -/

/-- A sequence of `loop()` calls: each observation with what the call did. -/
def runLoop (lib : ArduinoJson) : TeleBot → List Tick → List (Tick × Outcome)
  | _, [] => []
  | bot, env :: rest => (env, loop lib bot env) :: runLoop lib (loop lib bot env).bot rest

/-- The calls of a run that attempted a reconnect. -/
def attempts (run : List (Tick × Outcome)) : List (Tick × Outcome) :=
  run.filter (fun call => call.2.reconnect)

/-- A tick with the link down at the given clock reading. -/
def tickDown (now : Nat) : Tick := ⟨false, false, now, ⟨false, []⟩⟩

/-! ### The command table as the specification words it -/

/-- The entries the command table holds: the first `_comCount` slots of the
array, in registration order. -/
def table (self : TeleBot) : List ComHandler :=
  self._comHandlers.take self._comCount

/-- A sequence of `com()` registrations. -/
def registerAll (self : TeleBot) (regs : List (Str × Handler)) : TeleBot :=
  regs.foldl (fun bot reg => com bot reg.1 reg.2) self

/-- Sixteen registrations "/c0" .. "/c15" with handlers 200 .. 215. -/
def sixteenCommands : List (Str × Handler) :=
  (List.range 16).map (fun i => (ascii "/c" ++ stringOfInt i 10, 200 + i))

/-! ### Percent-encoding as the specification words it -/

/-- An ASCII letter or digit. -/
def isAsciiAlnum (b : Byte) : Prop :=
  (ch '0' ≤ b ∧ b ≤ ch '9') ∨ (ch 'A' ≤ b ∧ b ≤ ch 'Z') ∨ (ch 'a' ≤ b ∧ b ≤ ch 'z')

instance (b : Byte) : Decidable (isAsciiAlnum b) := by
  unfold isAsciiAlnum; infer_instance

/-- The bytes that pass through unescaped: letters, digits and `- _ . ~`. -/
def isUnreserved (b : Byte) : Prop :=
  isAsciiAlnum b ∨ b = ch '-' ∨ b = ch '_' ∨ b = ch '.' ∨ b = ch '~'

instance (b : Byte) : Decidable (isUnreserved b) := by
  unfold isUnreserved; infer_instance

/-- The hexadecimal digit of a value below sixteen. -/
def hexDigit (d : Nat) : Byte :=
  (ascii "0123456789abcdef").getD d (ch '?')

/-- The image of one byte under the escaping rule. -/
def encodeImage (b : Byte) : Str :=
  if isUnreserved b then [b]
  else if b = ch ' ' then [ch '+']
  else [ch '%', hexDigit (b.val / 16), hexDigit (b.val % 16)]

/-! ### Decoding of the escaped form -/

/-- The value of a lower-case hexadecimal digit, 0 for any other byte. -/
def hexValue (d : Byte) : Nat :=
  if 48 ≤ d.val ∧ d.val ≤ 57 then d.val - 48
  else if 97 ≤ d.val ∧ d.val ≤ 102 then d.val - 87
  else 0

/-- Where a form decoder stands inside an escape: outside, after the `%`, or
after the first digit. -/
inductive Escape where
  | outside
  | percent
  | high (h : Byte)

/-- The form decoder of the remote side, run from a given position: `+` is a
space, `%` and two hexadecimal digits are the byte of that value, any other
byte is itself. -/
def unescapeFrom : Escape → Str → Str
  | _, [] => []
  | Escape.outside, c :: rest =>
    if c = ch '%' then unescapeFrom Escape.percent rest
    else if c = ch '+' then ch ' ' :: unescapeFrom Escape.outside rest
    else c :: unescapeFrom Escape.outside rest
  | Escape.percent, h :: rest => unescapeFrom (Escape.high h) rest
  | Escape.high h, l :: rest =>
    Fin.ofNat (16 * hexValue h + hexValue l) :: unescapeFrom Escape.outside rest

/-- The form decoder of the remote side. -/
def unescape (s : Str) : Str := unescapeFrom Escape.outside s

/-! ### The poll request as the specification words it -/

/-- The number a string of decimal digits denotes. -/
def decimalValue (s : Str) : Nat :=
  s.foldl (fun acc d => 10 * acc + (d.val - 48)) 0

/-- Every byte of the string is a decimal digit. -/
def isDecimal (s : Str) : Prop :=
  ∀ d ∈ s, 48 ≤ d.val ∧ d.val ≤ 57

/-- The request path without an offset. -/
def pollPath (token : Str) : Str :=
  ascii "/bot" ++ token ++ ascii "/getUpdates?timeout=5"

/-! ### The command token as the code takes it -/

/-- The part of a text before its first space, the whole text when it holds
no space. -/
def spaceToken (text : Str) : Str :=
  text.takeWhile (fun b => b != SPACE)

/-- The text "/start", a newline, "hello". -/
def startNewlineHello : Str := ascii "/start" ++ LF :: ascii "hello"

/-- The text "/start", a tab, "hello". -/
def startTabHello : Str := ascii "/start" ++ 9 :: ascii "hello"

/-- A tick with the link up at the given clock reading and the given client
exchange. -/
def tickUp (now : Nat) (client : Client) : Tick := ⟨true, true, now, client⟩

/-! ## Outbound operations -/

/-- What an outbound operation does: the value returned, the object
afterwards and what was written to the client. -/
structure Sent where
  ok : Bool
  bot : TeleBot
  written : List Str
deriving DecidableEq, Repr

/-- The method `TeleBot::send(chat_id, text, parse, keys)`.  No statement of
it, nor of `_request`, assigns a data member. -/
def send (lib : ArduinoJson) (self : TeleBot) (client : Client) (chat_id : Int)
    (text parse keys : Str) : Sent :=
  let params := ascii "chat_id=" ++ stringOfLong chat_id ++ ascii "&text=" ++ _encode text
  let params1 := if parse.length > 0 then params ++ (ascii "&parse_mode=" ++ parse) else params
  let params2 :=
    if keys.length > 0 then params1 ++ (ascii "&reply_markup=" ++ _encode keys) else params1
  let reply := _request lib self client (ascii "sendMessage") params2 []
  ⟨reply.ok, self, reply.written⟩

/-- The method `TeleBot::sendIn`. -/
def sendIn (lib : ArduinoJson) (self : TeleBot) (client : Client) (chat_id : Int)
    (text keys : Str) : Sent :=
  send lib self client chat_id text [] keys

/-- The method `TeleBot::sendChat`. -/
def sendChat (lib : ArduinoJson) (self : TeleBot) (client : Client) (chat_id : Int)
    (action : Str) : Sent :=
  let params := ascii "chat_id=" ++ stringOfLong chat_id ++ ascii "&action=" ++ action
  let reply := _request lib self client (ascii "sendChatAction") params []
  ⟨reply.ok, self, reply.written⟩

/-- The method `TeleBot::answer`. -/
def answer (lib : ArduinoJson) (self : TeleBot) (client : Client) (inline_id text : Str) : Sent :=
  let params := ascii "callback_query_id=" ++ inline_id
  let params1 := if text.length > 0 then params ++ (ascii "&text=" ++ _encode text) else params
  let reply := _request lib self client (ascii "answerCallbackQuery") params1 []
  ⟨reply.ok, self, reply.written⟩

/-- The method `TeleBot::edit`. -/
def edit (lib : ArduinoJson) (self : TeleBot) (client : Client) (chat_id msg_id : Int)
    (text keys : Str) : Sent :=
  let params := ascii "chat_id=" ++ stringOfLong chat_id ++ ascii "&message_id="
    ++ stringOfLong msg_id ++ ascii "&text=" ++ _encode text
  let params1 :=
    if keys.length > 0 then params ++ (ascii "&reply_markup=" ++ _encode keys) else params
  let reply := _request lib self client (ascii "editMessageText") params1 []
  ⟨reply.ok, self, reply.written⟩

/-- The method `TeleBot::del`. -/
def del (lib : ArduinoJson) (self : TeleBot) (client : Client) (chat_id msg_id : Int) : Sent :=
  let params := ascii "chat_id=" ++ stringOfLong chat_id ++ ascii "&message_id="
    ++ stringOfLong msg_id
  let reply := _request lib self client (ascii "deleteMessage") params []
  ⟨reply.ok, self, reply.written⟩

/-- The method `TeleBot::photo`. -/
def photo (lib : ArduinoJson) (self : TeleBot) (client : Client) (chat_id : Int)
    (photo_url caption : Str) : Sent :=
  let params := ascii "chat_id=" ++ stringOfLong chat_id ++ ascii "&photo=" ++ _encode photo_url
  let params1 :=
    if caption.length > 0 then params ++ (ascii "&caption=" ++ _encode caption) else params
  let reply := _request lib self client (ascii "sendPhoto") params1 []
  ⟨reply.ok, self, reply.written⟩

/-- The method `TeleBot::document`. -/
def document (lib : ArduinoJson) (self : TeleBot) (client : Client) (chat_id : Int)
    (doc_url caption : Str) : Sent :=
  let params := ascii "chat_id=" ++ stringOfLong chat_id ++ ascii "&document=" ++ _encode doc_url
  let params1 :=
    if caption.length > 0 then params ++ (ascii "&caption=" ++ _encode caption) else params
  let reply := _request lib self client (ascii "sendDocument") params1 []
  ⟨reply.ok, self, reply.written⟩

/-- The method `TeleBot::location`; `lat` and `lon` are the texts
`String(lat, 6)` and `String(lon, 6)` of the two coordinates. -/
def location (lib : ArduinoJson) (self : TeleBot) (client : Client) (chat_id : Int)
    (lat lon : Str) : Sent :=
  let params := ascii "chat_id=" ++ stringOfLong chat_id ++ ascii "&latitude=" ++ lat
    ++ ascii "&longitude=" ++ lon
  let reply := _request lib self client (ascii "sendLocation") params []
  ⟨reply.ok, self, reply.written⟩

/-- A reply body that reports a refusal. -/
def refusedBody : Str :=
  ascii "\x7b\"ok\":false,\"description\":\"Bad Request\"\x7d"

/-- A library instance that knows the accepting and the refusing reply. -/
def replyJson : ArduinoJson :=
  scriptedJson [(ascii "\x7b\"ok\":true\x7d", Json.obj [(ascii "ok", Json.bool true)]),
    (refusedBody, Json.obj [(ascii "ok", Json.bool false),
      (ascii "description", Json.str (ascii "Bad Request"))])]

/-- The four ways a request fails: the connection is refused, no data comes
within the budget, the body is not JSON, the reply says `ok` is false. -/
def failingClients : List Client :=
  [⟨false, []⟩, ⟨true, []⟩, ⟨true, httpReply (ascii "<html>502</html>")⟩,
    ⟨true, httpReply refusedBody⟩]

/-- A client exchange whose body is not JSON. -/
def htmlClient : Client := ⟨true, httpReply (ascii "<html>502</html>")⟩

/-- A message update with the given id and the text "hi". -/
def shortUpdate (n : Nat) : Json :=
  Json.obj [(ascii "update_id", Json.int n),
    (ascii "message", Json.obj [(ascii "message_id", Json.int n),
      (ascii "chat", Json.obj [(ascii "id", Json.int 42)]),
      (ascii "text", Json.str (ascii "hi"))])]

/-- A poll document with ten short message updates, ids 7 to 16. -/
def batchDoc : Json :=
  Json.obj [(ascii "ok", Json.bool true),
    (ascii "result", Json.arr ((List.range 10).map (fun i => shortUpdate (7 + i))))]

/-- The body of `batchDoc`. -/
def batchBody : Str := render batchDoc

/-- A library instance that knows the body `batchBody`. -/
def batchJson : ArduinoJson := scriptedJson [(batchBody, batchDoc)]

/-- The tick of the batch example: link up, the server answers `batchBody`. -/
def batchTick (now : Nat) : Tick := tickUp now ⟨true, httpReply batchBody⟩

/-! ## Theorems -/

theorem encodeStep_eq : ∀ c : Byte, ∀ encoded : Str,
    encodeStep encoded c = encoded ++ encodeImage c := by
  intro c encoded
  have h : ∀ c : Byte, encodeStep [] c = encodeImage c := by decide
  have h2 : encodeStep encoded c = encoded ++ encodeStep [] c := by
    unfold encodeStep
    split_ifs <;> simp
  rw [h2, h]

theorem foldl_encodeStep (s : Str) : ∀ acc : Str,
    s.foldl encodeStep acc = acc ++ (s.map encodeImage).flatten := by
  induction s with
  | nil => intro acc; simp
  | cons c rest ih =>
    intro acc
    simp only [List.foldl_cons, List.map_cons, List.flatten_cons]
    rw [ih, encodeStep_eq, List.append_assoc]

/-- C1: for every byte string `s`, `_encode s` is the concatenation, in order,
of the images of its bytes: a letter, a digit or one of `- _ . ~` is itself, a
space is `+`, any other byte is `%` and the two hexadecimal digits of its value,
high nibble first; and `_encode "a b&c" = "a+b%26c"`. -/
theorem encode_concatenates_images (s : Str) :
    _encode s = (s.map encodeImage).flatten ∧
    (∀ b : Byte, encodeImage b =
      if isUnreserved b then [b]
      else if b = ch ' ' then [ch '+']
      else [ch '%', hexDigit (b.val / 16), hexDigit (b.val % 16)]) ∧
    _encode (ascii "a b&c") = ascii "a+b%26c" := by
  refine ⟨?_, fun b => rfl, by decide⟩
  unfold _encode
  rw [foldl_encodeStep]
  simp

/-! ### The cursor -/

theorem foldl_cursorStep (lib : ArduinoJson) (items : List Json) : ∀ c : Int,
    items.foldl (cursorStep lib) c =
      (items.map (fun update => lib.asLong (update.asObject.get (ascii "update_id")))).foldl max c := by
  induction items with
  | nil => intro c; rfl
  | cons u rest ih =>
    intro c
    simp only [List.foldl_cons, List.map_cons]
    rw [ih]
    congr 1
    unfold cursorStep
    simp only
    split_ifs with h
    · exact (max_eq_right (le_of_lt h)).symm
    · exact (max_eq_left (not_lt.mp h)).symm

theorem le_foldl_max (ids : List Int) : ∀ c : Int, c ≤ ids.foldl max c := by
  induction ids with
  | nil => intro c; exact le_refl c
  | cons e rest ih => intro c; exact le_trans (le_max_left c e) (ih (max c e))

theorem mem_le_foldl_max (ids : List Int) : ∀ c : Int, ∀ e ∈ ids, e ≤ ids.foldl max c := by
  induction ids with
  | nil => intro c e he; cases he
  | cons x rest ih =>
    intro c e he
    rcases List.mem_cons.mp he with h | h
    · subst h
      exact le_trans (le_max_right c e) (le_foldl_max rest (max c e))
    · exact ih (max c x) e h

theorem foldl_max_mem (ids : List Int) : ∀ c : Int, ids.foldl max c ∈ c :: ids := by
  induction ids with
  | nil => intro c; simp
  | cons x rest ih =>
    intro c
    have h := ih (max c x)
    simp only [List.foldl_cons]
    rcases List.mem_cons.mp h with h1 | h1
    · rw [h1]
      rcases max_choice c x with h2 | h2 <;> rw [h2] <;> simp
    · exact List.mem_cons_of_mem c (List.mem_cons_of_mem x h1)

theorem getUpdates_cursor_le (lib : ArduinoJson) (self : TeleBot) (client : Client) :
    self._lastID ≤ (_getUpdates lib self client).bot._lastID := by
  unfold _getUpdates
  split_ifs
  · simp only
    split
    · simp only [foldl_cursorStep]
      exact le_foldl_max _ _
    · exact le_refl _
  · exact le_refl _

theorem polls_cursor_le (lib : ArduinoJson) (clients : List Client) : ∀ self : TeleBot,
    self._lastID ≤ (polls lib self clients)._lastID := by
  induction clients with
  | nil => intro self; exact le_refl _
  | cons client rest ih =>
    intro self
    exact le_trans (getUpdates_cursor_le lib self client) (ih (_getUpdates lib self client).bot)

/-- C2: one poll by `_getUpdates` from cursor `c`.  When the connection opens
and the body decodes to a result list with update ids `e1..en`, the cursor
afterwards is `max(c, e1, ..., en)`: it bounds `c` and every id, it is one of
them, and it is `c` for an empty list.  When the connection fails or the body
does not decode, the cursor is `c`.  Over any sequence of polls the cursor
never decreases. -/
theorem getUpdates_cursor_is_max (lib : ArduinoJson) (self : TeleBot) (client : Client) :
    (∀ doc : Json, client.connect = true →
      lib.deserializeJson 1024 (readBody [] client.incoming) = Except.ok doc →
        lastUpdate (_getUpdates lib self client).bot
          = (updateIds lib doc).foldl max (lastUpdate self) ∧
        (∀ e ∈ lastUpdate self :: updateIds lib doc,
          e ≤ lastUpdate (_getUpdates lib self client).bot) ∧
        lastUpdate (_getUpdates lib self client).bot ∈ lastUpdate self :: updateIds lib doc ∧
        (updateIds lib doc = [] →
          lastUpdate (_getUpdates lib self client).bot = lastUpdate self)) ∧
    (client.connect = false →
      lastUpdate (_getUpdates lib self client).bot = lastUpdate self) ∧
    (∀ e : Str, lib.deserializeJson 1024 (readBody [] client.incoming) = Except.error e →
      lastUpdate (_getUpdates lib self client).bot = lastUpdate self) ∧
    (∀ clients : List Client, lastUpdate self ≤ lastUpdate (polls lib self clients)) := by
  refine ⟨?_, ?_, ?_, fun clients => polls_cursor_le lib clients self⟩
  · intro doc hc hd
    have key : lastUpdate (_getUpdates lib self client).bot
        = (updateIds lib doc).foldl max (lastUpdate self) := by
      simp only [_getUpdates, hc, if_true, hd, lastUpdate, foldl_cursorStep, updateIds]
    refine ⟨key, ?_, ?_, ?_⟩
    · intro e he
      rw [key]
      rcases List.mem_cons.mp he with h | h
      · rw [h]; exact le_foldl_max _ _
      · exact mem_le_foldl_max _ _ e h
    · rw [key]; exact foldl_max_mem _ _
    · intro hnil
      rw [key, hnil]; rfl
  · intro hc
    simp [_getUpdates, hc]
  · intro e hd
    unfold _getUpdates
    split_ifs <;> simp [hd]

/-- Witness of C2: from cursor 6, a poll whose body lists the ids 7 and 5
leaves the cursor at 7. -/
theorem getUpdates_cursor_is_max_witness :
    (⟨true, httpReply pollBody⟩ : Client).connect = true ∧
    sampleJson.deserializeJson 1024 (readBody [] (httpReply pollBody)) = Except.ok pollDoc ∧
    lastUpdate (_getUpdates sampleJson sampleBot ⟨true, httpReply pollBody⟩).bot = 7 :=
  ⟨rfl, by rfl,
    ((getUpdates_cursor_is_max sampleJson sampleBot ⟨true, httpReply pollBody⟩).1
      pollDoc rfl (by rfl)).1.trans (by decide)⟩

/-! ### Dispatch of messages -/

theorem find_range_none (p : Nat → Bool) (n : Nat) (h : ∀ j < n, p j = false) :
    (List.range n).find? p = none := by
  rw [List.find?_eq_none]
  intro x hx
  simp [h x (List.mem_range.mp hx)]

theorem find_range_first (p : Nat → Bool) (i : Nat) (hp : p i = true)
    (hmin : ∀ j < i, p j = false) : ∀ n : Nat, i < n → (List.range n).find? p = some i := by
  intro n
  induction n with
  | zero => intro h; omega
  | succ n ih =>
    intro h
    rw [List.range_succ, List.find?_append]
    by_cases hi : i < n
    · rw [ih hi]; rfl
    · have hin : i = n := by omega
      subst hin
      rw [find_range_none p i hmin]
      simp [hp]

theorem indexOf_absent (s : Str) (c : Byte) (h : ∀ b ∈ s, b ≠ c) : indexOf s c = -1 := by
  unfold indexOf
  have : s.findIdx? (fun b => b == c) = none := by
    rw [List.findIdx?_eq_none_iff]
    intro x hx
    simpa using h x hx
  rw [this]

theorem indexOf_first (s rest : Str) (c : Byte) (h : ∀ b ∈ s, b ≠ c) :
    indexOf (s ++ c :: rest) c = (s.length : Int) := by
  unfold indexOf
  have h1 : s.findIdx? (fun b => b == c) = none := by
    rw [List.findIdx?_eq_none_iff]
    intro x hx
    simpa using h x hx
  rw [List.findIdx?_append, h1]
  simp [List.findIdx?_cons]

theorem commandOf_token (T rest text : Str) (hT : T ≠ []) (hsp : ∀ b ∈ T, b ≠ SPACE)
    (htext : text = T ∨ text = T ++ SPACE :: rest) : commandOf text = T := by
  have hlen : 0 < T.length := List.length_pos.mpr hT
  rcases htext with h | h
  · subst h
    unfold commandOf
    simp [indexOf_absent text SPACE hsp]
  · subst h
    unfold commandOf
    simp only [indexOf_first T rest SPACE hsp]
    have hpos : (0 : Int) < (T.length : Int) := by exact_mod_cast hlen
    simp only [gt_iff_lt, hpos, if_true, Int.toNat_ofNat]
    unfold substring
    simp [hlen]

theorem msgOfMessage_text (lib : ArduinoJson) (msgObj : JsonObject) (text : Str)
    (hobj : msgObj.lookup (ascii "text") = some (Json.str text)) :
    (msgOfMessage lib msgObj).text = text := by
  simp [msgOfMessage, JsonObject.containsKey, JsonObject.get, hobj, ArduinoJson.asString]

/-- C3: for a message whose text is a token `T` that begins with "/" and holds
no space (so in particular no whitespace), alone or followed by one space and
a remainder, `_processMsg` makes exactly one call when a handler applies.  If
table entry `i` is the first whose command equals `T`, the only call is
`_comHandlers[i].handler(msg)`: no other command handler and not the generic
handler.  If no entry equals `T`, the only call is the generic handler when one
is registered, and there is no call otherwise. -/
theorem processMsg_first_match_or_generic (lib : ArduinoJson) (self : TeleBot)
    (msgObj : JsonObject) (T rest text : Str)
    (hT : startsWith T (ascii "/") = true) (hsp : ∀ b ∈ T, b ≠ SPACE)
    (htext : text = T ∨ text = T ++ SPACE :: rest)
    (hobj : msgObj.lookup (ascii "text") = some (Json.str text)) :
    (∀ i : Nat, i < self._comCount →
      (self._comHandlers.getD i ⟨[], NULL⟩).command = T →
      (∀ j < i, (self._comHandlers.getD j ⟨[], NULL⟩).command ≠ T) →
      _processMsg lib self msgObj
        = [⟨Site.command i, (self._comHandlers.getD i ⟨[], NULL⟩).handler,
            msgOfMessage lib msgObj⟩]) ∧
    ((∀ i < self._comCount, (self._comHandlers.getD i ⟨[], NULL⟩).command ≠ T) →
      _processMsg lib self msgObj
        = if self._msgHandler ≠ NULL then [⟨Site.message, self._msgHandler, msgOfMessage lib msgObj⟩]
          else []) ∧
    (msgOfMessage lib msgObj).text = text := by
  have hmsg := msgOfMessage_text lib msgObj text hobj
  have hne : T ≠ [] := by
    intro h
    rw [h] at hT
    exact absurd hT (by decide)
  have hcmd : commandOf text = T := commandOf_token T rest text hne hsp htext
  have hstart : startsWith text (ascii "/") = true := by
    cases T with
    | nil => exact absurd rfl hne
    | cons a T1 =>
      rcases htext with h | h <;> subst h <;> simpa [startsWith, ascii] using hT
  refine ⟨?_, ?_, hmsg⟩
  · intro i hi hcmdi hmin
    have hfind : findCommand self T = some i := by
      unfold findCommand
      apply find_range_first _ i (by simpa using hcmdi) _ _ hi
      intro j hj
      simpa using hmin j hj
    simp only [_processMsg, hmsg, hstart, if_true, hcmd, hfind]
  · intro hnone
    have hfind : findCommand self T = none := by
      unfold findCommand
      apply find_range_none
      intro j hj
      simpa using hnone j hj
    simp only [_processMsg, hmsg, hstart, if_true, hcmd, hfind]
    by_cases hh : self._msgHandler = NULL <;> simp [hh]

/-- Witness of C3: with handlers bound to "/start" and "/help", the text
"/start hello" calls only the "/start" handler and the text "/unknown" calls
only the generic handler. -/
theorem processMsg_first_match_or_generic_witness :
    _processMsg sampleJson commandBot (textMessage (ascii "/start hello"))
      = [⟨Site.command 0, 101, msgOfMessage sampleJson (textMessage (ascii "/start hello"))⟩] ∧
    _processMsg sampleJson commandBot (textMessage (ascii "/unknown"))
      = [⟨Site.message, 103, msgOfMessage sampleJson (textMessage (ascii "/unknown"))⟩] ∧
    (msgOfMessage sampleJson (textMessage (ascii "/start hello"))).text = ascii "/start hello" :=
  ⟨(processMsg_first_match_or_generic sampleJson commandBot
      (textMessage (ascii "/start hello")) (ascii "/start") (ascii "hello") (ascii "/start hello")
      (by decide) (by decide) (Or.inr (by decide)) (by rfl)).1 0
      (by decide) (by decide) (by decide),
   (processMsg_first_match_or_generic sampleJson commandBot
      (textMessage (ascii "/unknown")) (ascii "/unknown") [] (ascii "/unknown")
      (by decide) (by decide) (Or.inl rfl) (by rfl)).2.1 (by decide),
   (processMsg_first_match_or_generic sampleJson commandBot
      (textMessage (ascii "/start hello")) (ascii "/start") (ascii "hello") (ascii "/start hello")
      (by decide) (by decide) (Or.inr (by decide)) (by rfl)).2.2⟩

/-! ### Dispatch of callbacks -/

/-- C4: for an update with a "callback_query" object and no "message", whatever
the command table and the payload, `_process` calls no command handler and not
the generic handler: it makes the single call `_inlineHandler(msg)` when a
callback handler is registered and no call otherwise, and `msg` has
`is_inline = true` and `inline_data` equal to the payload. -/
theorem process_callback_only_inline (lib : ArduinoJson) (self : TeleBot)
    (update inlineObj : JsonObject) (payload : Str)
    (hmsg : update.containsKey (ascii "message") = false)
    (hcb : update.lookup (ascii "callback_query") = some (Json.obj inlineObj))
    (hdata : inlineObj.lookup (ascii "data") = some (Json.str payload)) :
    _process lib self update
      = (if self._inlineHandler ≠ NULL then
          [⟨Site.inline, self._inlineHandler, msgOfInline lib inlineObj⟩]
        else []) ∧
    (_process lib self update).length ≤ 1 ∧
    (∀ c ∈ _process lib self update,
      c.site = Site.inline ∧ c.fn = self._inlineHandler ∧ c.msg.is_inline = true ∧
      c.msg.inline_data = payload) := by
  have hdata1 : (msgOfInline lib inlineObj).inline_data = payload := by
    simp [msgOfInline, JsonObject.get, hdata, ArduinoJson.asString]
  have hval : _process lib self update
      = (if self._inlineHandler ≠ NULL then
          [⟨Site.inline, self._inlineHandler, msgOfInline lib inlineObj⟩]
        else []) := by
    have hcb2 : update.containsKey (ascii "callback_query") = true := by
      simp [JsonObject.containsKey, hcb]
    have hget : (JsonObject.get update (ascii "callback_query")).asObject = inlineObj := by
      simp [JsonObject.get, hcb, Json.asObject]
    unfold _process
    rw [hmsg, hcb2, hget]
    unfold _processInline
    by_cases hh : self._inlineHandler = NULL <;> simp [hh]
  refine ⟨hval, ?_, ?_⟩
  · rw [hval]; split_ifs <;> simp
  · intro c hc
    rw [hval] at hc
    split_ifs at hc
    · simp only [List.mem_singleton] at hc
      subst hc
      exact ⟨rfl, rfl, rfl, hdata1⟩
    · cases hc

/-- Witness of C4: a callback whose payload is the registered command "/start"
reaches only the callback handler. -/
theorem process_callback_only_inline_witness :
    (callbackUpdate (ascii "/start")).containsKey (ascii "message") = false ∧
    _process sampleJson commandBot (callbackUpdate (ascii "/start"))
      = [⟨Site.inline, 104,
          { chat_id := 0, text := [], user := [], name := [], msg_id := 0, is_inline := true,
            inline_data := ascii "/start", inline_id := ascii "q1" }⟩] :=
  ⟨by decide,
   (process_callback_only_inline sampleJson commandBot (callbackUpdate (ascii "/start"))
      [(ascii "id", Json.str (ascii "q1")), (ascii "data", Json.str (ascii "/start"))]
      (ascii "/start") (by decide) (by rfl) (by rfl)).1.trans (by decide)⟩

/-! ### Keyboards -/

theorem allocVariant_fits (pool : MemoryPool) (h : pool.used + SLOT_SIZE ≤ pool.capacity) :
    pool.allocVariant = some { pool with used := pool.used + SLOT_SIZE } := by
  simp [MemoryPool.allocVariant, h]

theorem saveString_fits (pool : MemoryPool) (s : Str)
    (h : pool.used + (s.length + 1) ≤ pool.capacity) :
    ∃ pool1, pool.saveString s = some pool1 ∧ pool1.capacity = pool.capacity ∧
      pool1.used ≤ pool.used + (s.length + 1) := by
  unfold MemoryPool.saveString
  by_cases hm : s ∈ pool.strings
  · exact ⟨pool, by simp [hm], rfl, by omega⟩
  · exact ⟨{ pool with used := pool.used + (s.length + 1), strings := s :: pool.strings },
      by simp [hm, h], rfl, le_refl _⟩

theorem createNested_fits (pool : MemoryPool) (h : pool.used + SLOT_SIZE ≤ pool.capacity) :
    createNested pool true = ({ pool with used := pool.used + SLOT_SIZE }, true) := by
  simp [createNested, allocVariant_fits pool h]

theorem setMember_fits (pool : MemoryPool) (members : JsonObject) (key : Str) (value : Json)
    (h : pool.used + SLOT_SIZE ≤ pool.capacity) :
    setMember pool (some members) key value
      = ({ pool with used := pool.used + SLOT_SIZE }, some (members ++ [(key, value)])) := by
  simp [setMember, allocVariant_fits pool h]

theorem setMemberString_fits (pool : MemoryPool) (members : JsonObject) (key value : Str)
    (h : pool.used + (SLOT_SIZE + (value.length + 1)) ≤ pool.capacity) :
    ∃ pool1, setMemberString pool (some members) key value
        = (pool1, some (members ++ [(key, Json.str value)])) ∧
      pool1.capacity = pool.capacity ∧
      pool1.used ≤ pool.used + (SLOT_SIZE + (value.length + 1)) := by
  have h1 : pool.used + SLOT_SIZE ≤ pool.capacity := by omega
  obtain ⟨pool2, hs, hc, hu⟩ := saveString_fits { pool with used := pool.used + SLOT_SIZE } value
    (by simp only; omega)
  refine ⟨pool2, ?_, hc, ?_⟩
  · simp [setMemberString, allocVariant_fits pool h1, hs]
  · simp only at hu; omega

theorem addString_fits (pool : MemoryPool) (items : JsonArray) (value : Str)
    (h : pool.used + (SLOT_SIZE + (value.length + 1)) ≤ pool.capacity) :
    ∃ pool1, addString pool (some items) value = (pool1, some (items ++ [Json.str value])) ∧
      pool1.capacity = pool.capacity ∧
      pool1.used ≤ pool.used + (SLOT_SIZE + (value.length + 1)) := by
  have h1 : pool.used + SLOT_SIZE ≤ pool.capacity := by omega
  obtain ⟨pool2, hs, hc, hu⟩ := saveString_fits { pool with used := pool.used + SLOT_SIZE } value
    (by simp only; omega)
  refine ⟨pool2, ?_, hc, ?_⟩
  · simp [addString, allocVariant_fits pool h1, hs]
  · simp only at hu; omega

theorem createInStep_fits (pool : MemoryPool) (rows : List Json) (key : Str × Str × Str)
    (h : pool.used + buttonRowCost key ≤ pool.capacity) :
    ∃ pool1, createInStep true (pool, rows) key = (pool1, rows ++ [buttonRow key]) ∧
      pool1.capacity = pool.capacity ∧ pool1.used ≤ pool.used + buttonRowCost key := by
  obtain ⟨label, callback, url⟩ := key
  unfold buttonRowCost at h
  simp only at h
  have hs : SLOT_SIZE = 16 := rfl
  obtain ⟨p3, e3, c3, u3⟩ := setMemberString_fits
    { pool with used := pool.used + SLOT_SIZE + SLOT_SIZE } [] (ascii "text") label
    (by simp only; split_ifs at h <;> omega)
  simp only at c3 u3
  obtain ⟨p4, e4, c4, u4⟩ := setMemberString_fits p3
    [(ascii "text", Json.str label)] (ascii "callback_data") callback
    (by split_ifs at h <;> omega)
  simp only [List.nil_append, List.cons_append] at e3 e4
  have hn1 := createNested_fits pool (by split_ifs at h <;> omega)
  have hn2 := createNested_fits { pool with used := pool.used + SLOT_SIZE }
    (by simp only; split_ifs at h <;> omega)
  by_cases hu : url = []
  · subst hu
    refine ⟨p4, ?_, by omega, ?_⟩
    · simp [createInStep, hn1, hn2, e3, e4, buttonRow]
    · simp only [buttonRowCost, if_true]; simp only [if_true] at h; omega
  · simp only [hu, if_false] at h
    obtain ⟨p5, e5, c5, u5⟩ := setMemberString_fits p4
      [(ascii "text", Json.str label), (ascii "callback_data", Json.str callback)]
      (ascii "url") url (by omega)
    simp only [List.nil_append, List.cons_append] at e5
    have hlen : 0 < url.length := List.length_pos.mpr hu
    refine ⟨p5, ?_, by omega, ?_⟩
    · simp [createInStep, hn1, hn2, e3, e4, e5, buttonRow, hu, hlen]
    · simp only [buttonRowCost, hu, if_false]; omega

theorem createIn_loop_fits (keys : List (Str × Str × Str)) :
    ∀ (pool : MemoryPool) (rows : List Json),
      pool.used + (keys.map buttonRowCost).sum ≤ pool.capacity →
      ∃ pool1, keys.foldl (createInStep true) (pool, rows) = (pool1, rows ++ keys.map buttonRow) ∧
        pool1.capacity = pool.capacity ∧
        pool1.used ≤ pool.used + (keys.map buttonRowCost).sum := by
  induction keys with
  | nil => intro pool rows _; exact ⟨pool, by simp, rfl, by simp⟩
  | cons key rest ih =>
    intro pool rows h
    simp only [List.map_cons, List.sum_cons] at h
    obtain ⟨p1, e1, c1, u1⟩ := createInStep_fits pool rows key (by omega)
    obtain ⟨p2, e2, c2, u2⟩ := ih p1 (rows ++ [buttonRow key]) (by omega)
    refine ⟨p2, ?_, by omega, ?_⟩
    · simp only [List.foldl_cons, e1, e2, List.map_cons, List.append_assoc, List.singleton_append]
    · simp only [List.map_cons, List.sum_cons]; omega

theorem createInDelete_fits (pool : MemoryPool) (rows : List Json)
    (h : pool.used + 4 * SLOT_SIZE ≤ pool.capacity) :
    (createInDelete true (pool, rows)).2 = rows ++ [deleteRow] := by
  have hs : SLOT_SIZE = 16 := rfl
  have hn1 := createNested_fits pool (by omega)
  have hn2 := createNested_fits { pool with used := pool.used + SLOT_SIZE } (by simp only; omega)
  have hm1 := setMember_fits { pool with used := pool.used + SLOT_SIZE + SLOT_SIZE } []
    (ascii "text") (Json.str deleteLabel) (by simp only; omega)
  have hm2 := setMember_fits
    { pool with used := pool.used + SLOT_SIZE + SLOT_SIZE + SLOT_SIZE }
    [(ascii "text", Json.str deleteLabel)]
    (ascii "callback_data") (Json.str (ascii "delete")) (by simp only; omega)
  simp only [List.nil_append, List.cons_append] at hm1 hm2
  simp [createInDelete, hn1, hn2, hm1, hm2, deleteRow]

theorem createInDoc_fits (keys : List (Str × Str × Str)) (delBtn : Bool)
    (hfit : inlineCost keys delBtn ≤ 1024) : createInDoc keys delBtn = inlineMarkup keys delBtn := by
  have hs : SLOT_SIZE = 16 := rfl
  unfold inlineCost at hfit
  have hn := createNested_fits (MemoryPool.create 1024)
    (by simp only [MemoryPool.create]; omega)
  obtain ⟨p1, e1, c1, u1⟩ := createIn_loop_fits keys
    { MemoryPool.create 1024 with used := (MemoryPool.create 1024).used + SLOT_SIZE } []
    (by simp only [MemoryPool.create]; omega)
  simp only [MemoryPool.create] at c1 u1
  cases delBtn with
  | false =>
    simp [createInDoc, hn, e1, inlineMarkup]
  | true =>
    simp only [if_true] at hfit
    have hd := createInDelete_fits p1 (keys.map buttonRow) (by omega)
    simp [createInDoc, hn, e1, inlineMarkup, hd]

/-- Counterexample to C5 as stated: forty rows do not fit the 1024-byte
document.  The "inline_keyboard" array that is serialized has 16 rows, not 40
(nor 41 with the delete button), its last row holds a button without text, and
the delete row is absent. -/
theorem createIn_forty_rows_truncated :
    (inlineRows (createInDoc fortyKeys false)).length = 16 ∧
    (inlineRows (createInDoc fortyKeys false)).length ≠ fortyKeys.length ∧
    (inlineRows (createInDoc fortyKeys true)).length = 16 ∧
    (inlineRows (createInDoc fortyKeys true)).length ≠ fortyKeys.length + 1 ∧
    ((inlineRows (createInDoc fortyKeys true)).map render).getLast? = some (ascii "[\x7b\x7d]") ∧
    inlineCost fortyKeys false = 2976 := by
  decide

/-- C5, amended: for every `n` rows `(label, callback, url)` whose document
fits the 1024-byte pool (`inlineCost keys delBtn ≤ 1024`), `createIn`
serializes the object whose "inline_keyboard" array has the `n` rows in order,
row `i` holding one button with `text = label_i`, `callback_data = callback_i`
and a `url` field exactly when `url_i` is not empty, followed when `delBtn` is
set by one last row, the delete button with `callback_data = "delete"` and no
url: `n` rows without it, `n + 1` with it. -/
theorem createIn_rows_when_document_fits (lib : ArduinoJson) (keys : List (Str × Str × Str))
    (delBtn : Bool) (hfit : inlineCost keys delBtn ≤ 1024) :
    createIn lib keys delBtn = lib.serializeJson (inlineMarkup keys delBtn) ∧
    createInDoc keys delBtn = Json.obj [(ascii "inline_keyboard",
      Json.arr (keys.map buttonRow ++ (if delBtn then [deleteRow] else [])))] ∧
    inlineRows (createInDoc keys delBtn)
      = keys.map buttonRow ++ (if delBtn then [deleteRow] else []) ∧
    (inlineRows (createInDoc keys delBtn)).length = keys.length + (if delBtn then 1 else 0) ∧
    (∀ label callback url : Str, buttonRow (label, callback, url)
      = Json.arr [Json.obj ([(ascii "text", Json.str label), (ascii "callback_data", Json.str callback)]
          ++ (if url = [] then [] else [(ascii "url", Json.str url)]))]) ∧
    deleteRow = Json.arr [Json.obj [(ascii "text", Json.str deleteLabel),
      (ascii "callback_data", Json.str (ascii "delete"))]] := by
  have hdoc := createInDoc_fits keys delBtn hfit
  have hrows : inlineRows (createInDoc keys delBtn)
      = keys.map buttonRow ++ (if delBtn then [deleteRow] else []) := by
    rw [hdoc]
    simp [inlineRows, inlineMarkup, Json.asObject, JsonObject.get, Json.asArray]
  refine ⟨?_, hdoc, hrows, ?_, fun _ _ _ => rfl, rfl⟩
  · simp only [createIn, hdoc]
  · rw [hrows]
    cases delBtn <;> simp

/-- Witness of C5: the rows Yes/y and No/n with the delete button give three
rows, the third being the delete button. -/
theorem createIn_rows_when_document_fits_witness :
    inlineCost yesNoKeys true ≤ 1024 ∧
    (inlineRows (createInDoc yesNoKeys true)).length = 3 ∧
    inlineRows (createInDoc yesNoKeys true)
      = [buttonRow (ascii "Yes", ascii "y", []), buttonRow (ascii "No", ascii "n", []), deleteRow] :=
  ⟨by decide,
   (createIn_rows_when_document_fits sampleJson yesNoKeys true (by decide)).2.2.2.1,
   (createIn_rows_when_document_fits sampleJson yesNoKeys true (by decide)).2.2.1⟩

theorem createKeyStep_fits (pool : MemoryPool) (rows : List Json) (key : Str × Str)
    (h : pool.used + labelRowCost key ≤ pool.capacity) :
    ∃ pool1, createKeyStep true (pool, rows) key = (pool1, rows ++ [labelRow key]) ∧
      pool1.capacity = pool.capacity ∧ pool1.used ≤ pool.used + labelRowCost key := by
  obtain ⟨first, second⟩ := key
  unfold labelRowCost at h
  simp only at h
  have hs : SLOT_SIZE = 16 := rfl
  have hn1 := createNested_fits pool (by split_ifs at h <;> omega)
  obtain ⟨p2, e2, c2, u2⟩ := addString_fits { pool with used := pool.used + SLOT_SIZE } [] first
    (by simp only; split_ifs at h <;> omega)
  simp only [List.nil_append] at e2 c2 u2
  by_cases hu : second = []
  · subst hu
    refine ⟨p2, ?_, by omega, ?_⟩
    · simp [createKeyStep, hn1, e2, labelRow]
    · simp only [labelRowCost, if_true]; simp only [if_true] at h; omega
  · simp only [hu, if_false] at h
    obtain ⟨p3, e3, c3, u3⟩ := addString_fits p2 [Json.str first] second (by omega)
    simp only [List.cons_append, List.nil_append] at e3
    have hlen : 0 < second.length := List.length_pos.mpr hu
    refine ⟨p3, ?_, by omega, ?_⟩
    · simp [createKeyStep, hn1, e2, e3, labelRow, hu, hlen]
    · simp only [labelRowCost, hu, if_false]; omega

theorem createKey_loop_fits (keys : List (Str × Str)) :
    ∀ (pool : MemoryPool) (rows : List Json),
      pool.used + (keys.map labelRowCost).sum ≤ pool.capacity →
      ∃ pool1, keys.foldl (createKeyStep true) (pool, rows) = (pool1, rows ++ keys.map labelRow) ∧
        pool1.capacity = pool.capacity ∧
        pool1.used ≤ pool.used + (keys.map labelRowCost).sum := by
  induction keys with
  | nil => intro pool rows _; exact ⟨pool, by simp, rfl, by simp⟩
  | cons key rest ih =>
    intro pool rows h
    simp only [List.map_cons, List.sum_cons] at h
    obtain ⟨p1, e1, c1, u1⟩ := createKeyStep_fits pool rows key (by omega)
    obtain ⟨p2, e2, c2, u2⟩ := ih p1 (rows ++ [labelRow key]) (by omega)
    refine ⟨p2, ?_, by omega, ?_⟩
    · simp only [List.foldl_cons, e1, e2, List.map_cons, List.append_assoc, List.singleton_append]
    · simp only [List.map_cons, List.sum_cons]; omega

theorem createKeyDoc_fits (keys : List (Str × Str)) (resize once : Bool)
    (hfit : replyCost keys ≤ 1024) : createKeyDoc keys resize once = replyMarkup keys resize once := by
  have hs : SLOT_SIZE = 16 := rfl
  unfold replyCost at hfit
  have hn := createNested_fits (MemoryPool.create 1024)
    (by simp only [MemoryPool.create]; omega)
  obtain ⟨p1, e1, c1, u1⟩ := createKey_loop_fits keys
    { MemoryPool.create 1024 with used := (MemoryPool.create 1024).used + SLOT_SIZE } []
    (by simp only [MemoryPool.create]; omega)
  simp only [MemoryPool.create] at c1 u1
  simp only [List.nil_append] at e1
  have hm1 := setMember_fits p1 [(ascii "keyboard", Json.arr (keys.map labelRow))]
    (ascii "resize_keyboard") (Json.bool resize) (by omega)
  have hm2 := setMember_fits { p1 with used := p1.used + SLOT_SIZE }
    [(ascii "keyboard", Json.arr (keys.map labelRow)), (ascii "resize_keyboard", Json.bool resize)]
    (ascii "one_time_keyboard") (Json.bool once) (by simp only; omega)
  simp only [List.cons_append, List.nil_append] at hm1 hm2
  simp [createKeyDoc, hn, e1, hm1, hm2, replyMarkup]

/-- Counterexample to C6 as stated: forty rows do not fit the 1024-byte
document.  The "keyboard" array that is serialized has 31 rows, not 40, and the
object has neither a "resize_keyboard" nor a "one_time_keyboard" field. -/
theorem createKey_forty_rows_truncated :
    (keyboardRows (createKeyDoc fortyLabels true false)).length = 31 ∧
    (keyboardRows (createKeyDoc fortyLabels true false)).length ≠ fortyLabels.length ∧
    (createKeyDoc fortyLabels true false).asObject.containsKey (ascii "resize_keyboard") = false ∧
    (createKeyDoc fortyLabels true false).asObject.containsKey (ascii "one_time_keyboard") = false ∧
    replyCost fortyLabels = 1528 := by
  decide

/-- C6, amended: for every `n` rows of two labels whose document fits the
1024-byte pool (`replyCost keys ≤ 1024`), `createKey` serializes the object
whose "keyboard" array has exactly the `n` rows in order, row `i` being
`[label_i0]` when `label_i1` is empty and `[label_i0, label_i1]` otherwise,
and whose "resize_keyboard" and "one_time_keyboard" fields are `resize` and
`once`; for `n = 0` it is the object with an empty "keyboard" array. -/
theorem createKey_rows_when_document_fits (lib : ArduinoJson) (keys : List (Str × Str))
    (resize once : Bool) (hfit : replyCost keys ≤ 1024) :
    createKey lib keys resize once = lib.serializeJson (replyMarkup keys resize once) ∧
    createKeyDoc keys resize once = Json.obj [(ascii "keyboard", Json.arr (keys.map labelRow)),
      (ascii "resize_keyboard", Json.bool resize), (ascii "one_time_keyboard", Json.bool once)] ∧
    (keyboardRows (createKeyDoc keys resize once)).length = keys.length ∧
    (∀ first second : Str, labelRow (first, second)
      = if second = [] then Json.arr [Json.str first]
        else Json.arr [Json.str first, Json.str second]) ∧
    createKeyDoc [] resize once = Json.obj [(ascii "keyboard", Json.arr []),
      (ascii "resize_keyboard", Json.bool resize), (ascii "one_time_keyboard", Json.bool once)] := by
  have hdoc := createKeyDoc_fits keys resize once hfit
  refine ⟨?_, hdoc, ?_, ?_, ?_⟩
  · simp only [createKey, hdoc]
  · rw [hdoc]
    simp [keyboardRows, replyMarkup, Json.asObject, JsonObject.get, Json.asArray]
  · intro first second
    unfold labelRow
    split_ifs <;> rfl
  · exact createKeyDoc_fits [] resize once (by decide)

/-- Witness of C6: two rows, the second with an empty second label. -/
theorem createKey_rows_when_document_fits_witness :
    replyCost [(ascii "A", ascii "B"), (ascii "C", [])] ≤ 1024 ∧
    createKey sampleJson [(ascii "A", ascii "B"), (ascii "C", [])] true false
      = ascii "\x7b\"keyboard\":[[\"A\",\"B\"],[\"C\"]],\"resize_keyboard\":true,\"one_time_keyboard\":false\x7d" :=
  ⟨by decide,
   (createKey_rows_when_document_fits sampleJson [(ascii "A", ascii "B"), (ascii "C", [])]
      true false (by decide)).1.trans (by decide)⟩

/-! ### The wireless link -/

theorem waitLink_ends (radio : Radio) (start timeout k : Nat)
    (hend : (!radio.status k && decide (subU32 (radio.millis (k + 1)) start < timeout)) = false) :
    ∀ (d k0 : Nat), k0 + d = k →
      (∀ j, k0 ≤ j → j < k →
        (!radio.status j && decide (subU32 (radio.millis (j + 1)) start < timeout)) = true) →
      ∀ fuel, d < fuel → waitLink radio start timeout fuel k0 = some k := by
  intro d
  induction d with
  | zero =>
    intro k0 hk _ fuel hf
    have : k0 = k := by omega
    subst this
    cases fuel with
    | zero => omega
    | succ f => simp [waitLink, hend]
  | succ d ih =>
    intro k0 hk hcont fuel hf
    cases fuel with
    | zero => omega
    | succ f =>
      have h0 := hcont k0 (le_refl _) (by omega)
      have := ih (k0 + 1) (by omega) (fun j hj1 hj2 => hcont j (by omega) hj2) f (by omega)
      simp only [waitLink, h0, if_true]
      exact this

theorem waitLink_of_stillWaiting (conf : WiFiConf) (radio : Radio) (k : Nat)
    (hwait : ∀ j < k, stillWaiting conf radio j)
    (hend : radio.status k = true ∨ toU32 conf.timeout ≤ elapsed radio (k + 1)) :
    ∀ fuel, k < fuel → waitLink radio (radio.millis 0) (toU32 conf.timeout) fuel 0 = some k := by
  intro fuel hf
  apply waitLink_ends radio (radio.millis 0) (toU32 conf.timeout) k _ k 0 (by omega) _ fuel hf
  · rcases hend with h | h
    · simp [h]
    · have : ¬ subU32 (radio.millis (k + 1)) (radio.millis 0) < toU32 conf.timeout := by
        unfold elapsed at h; omega
      simp [this]
  · intro j _ hj
    obtain ⟨h1, h2⟩ := hwait j hj
    unfold elapsed at h2
    simp [h1, h2]

/-- C7: `conWiFi(conf)` from any state with a status observer registered, in a
run without asynchronous link events (no `_wifiEvent` call, and the status
check after the wait loop answers as the check that ended the loop).  The
observer is notified exactly twice, `WIFI_CONNECTING` then the final state,
and `wifiStatus()` afterwards is that final state.  When static addressing is
requested and rejected the final state is `WIFI_ERROR`, the result is false,
`lastError()` is "Static IP error" and `WiFi.begin` is not called.  Otherwise,
when the wait loop ends at its test `k` because the link reports connected, the
final state is `WIFI_ON` and the result is true; when it ends because the
timeout has elapsed, the final state is `WIFI_ERROR`, the result is false and
`lastError()` is "WiFi timeout".  Any fuel above `k` gives the result. -/
theorem conWiFi_notifies_connecting_then_final (self : TeleBot) (conf : WiFiConf) (radio : Radio)
    (hobs : self._wifiHandler ≠ NULL) :
    (conf.staticIP = true → radio.configOk = false → ∀ fuel,
      conWiFi self conf radio fuel
        = some ⟨{ self with _wifiConf := conf, _wifiStat := WiFiStat.WIFI_ERROR,
                            _error := ascii "Static IP error" },
            false, [WiFiStat.WIFI_CONNECTING, WiFiStat.WIFI_ERROR], false⟩) ∧
    ((conf.staticIP = false ∨ radio.configOk = true) → ∀ k : Nat,
      (∀ j < k, stillWaiting conf radio j) →
      (radio.status k = true → radio.status (k + 1) = true → ∀ fuel, k < fuel →
        conWiFi self conf radio fuel
          = some ⟨{ self with _wifiConf := conf, _wifiStat := WiFiStat.WIFI_ON },
              true, [WiFiStat.WIFI_CONNECTING, WiFiStat.WIFI_ON], true⟩) ∧
      (radio.status k = false → toU32 conf.timeout ≤ elapsed radio (k + 1) →
        radio.status (k + 1) = false → ∀ fuel, k < fuel →
        conWiFi self conf radio fuel
          = some ⟨{ self with _wifiConf := conf, _wifiStat := WiFiStat.WIFI_ERROR,
                              _error := ascii "WiFi timeout" },
              false, [WiFiStat.WIFI_CONNECTING, WiFiStat.WIFI_ERROR], true⟩)) ∧
    (∀ fuel r, conWiFi self conf radio fuel = some r →
      r.notified = [WiFiStat.WIFI_CONNECTING, wifiStatus r.bot] ∧
      (r.result = true ↔ wifiStatus r.bot = WiFiStat.WIFI_ON) ∧
      (r.result = false ↔ wifiStatus r.bot = WiFiStat.WIFI_ERROR)) := by
  have hobs1 : (self._wifiHandler != NULL) = true := by simpa using hobs
  refine ⟨?_, ?_, ?_⟩
  · intro hs hc fuel
    simp [conWiFi, _setWiFiStat, _setStaticIP, hs, hc, hobs1]
  · intro hstat k hwait
    have hguard : (conf.staticIP && !_setStaticIP radio) = false := by
      rcases hstat with h | h <;> simp [_setStaticIP, h]
    refine ⟨?_, ?_⟩
    · intro hk hk1 fuel hf
      have hw := waitLink_of_stillWaiting conf radio k hwait (Or.inl hk) fuel hf
      simp [conWiFi, _setWiFiStat, hguard, hw, hk1, hobs1]
    · intro _ ht hk1 fuel hf
      have hw := waitLink_of_stillWaiting conf radio k hwait (Or.inr ht) fuel hf
      simp [conWiFi, _setWiFiStat, hguard, hw, hk1, hobs1]
  · intro fuel r hr
    unfold conWiFi at hr
    simp only [_setWiFiStat, hobs1, if_true] at hr
    split_ifs at hr with h1
    · cases hr
      simp [wifiStatus]
    · split at hr
      · cases hr
      · split_ifs at hr <;> cases hr <;> simp [wifiStatus]

/-- Witness of C7: a link that comes up at the third check gives
`WIFI_CONNECTING, WIFI_ON` and true; an unreachable network with a timeout of
one second gives `WIFI_CONNECTING, WIFI_ERROR`, false and "WiFi timeout"; a
rejected static address gives `WIFI_CONNECTING, WIFI_ERROR`, false and
"Static IP error" without a link attempt. -/
theorem conWiFi_notifies_connecting_then_final_witness :
    observedBot._wifiHandler ≠ NULL ∧
    conWiFi observedBot homeConf radioUp 10
      = some ⟨{ observedBot with _wifiConf := homeConf, _wifiStat := WiFiStat.WIFI_ON },
          true, [WiFiStat.WIFI_CONNECTING, WiFiStat.WIFI_ON], true⟩ ∧
    conWiFi observedBot { homeConf with timeout := 1000 } radioDown 10
      = some ⟨{ observedBot with _wifiConf := { homeConf with timeout := 1000 },
                                 _wifiStat := WiFiStat.WIFI_ERROR, _error := ascii "WiFi timeout" },
          false, [WiFiStat.WIFI_CONNECTING, WiFiStat.WIFI_ERROR], true⟩ ∧
    conWiFi observedBot { homeConf with staticIP := true } radioDown 10
      = some ⟨{ observedBot with _wifiConf := { homeConf with staticIP := true },
                                 _wifiStat := WiFiStat.WIFI_ERROR, _error := ascii "Static IP error" },
          false, [WiFiStat.WIFI_CONNECTING, WiFiStat.WIFI_ERROR], false⟩ :=
  ⟨by decide,
   ((conWiFi_notifies_connecting_then_final observedBot homeConf radioUp (by decide)).2.1
      (Or.inl rfl) 3 (by decide)).1 (by decide) (by decide) 10 (by decide),
   ((conWiFi_notifies_connecting_then_final observedBot { homeConf with timeout := 1000 }
      radioDown (by decide)).2.1 (Or.inl rfl) 1 (by decide)).2 (by decide) (by decide) (by decide)
      10 (by decide),
   (conWiFi_notifies_connecting_then_final observedBot { homeConf with staticIP := true }
      radioDown (by decide)).1 rfl rfl 10⟩

/-! ### Reconnect attempts -/

theorem getUpdates_frame (lib : ArduinoJson) (self : TeleBot) (client : Client) :
    (_getUpdates lib self client).bot
      = { self with _lastID := (_getUpdates lib self client).bot._lastID } := by
  unfold _getUpdates
  split_ifs
  · dsimp only
    split <;> rfl
  · rfl

theorem loop_link_down (lib : ArduinoJson) (self : TeleBot) (env : Tick)
    (h : (self._autoReconnect && !env.linkFirst) = true) :
    loop lib self env
      = if subU32 env.now self._lastTry > self._reconnectTime then
          ⟨{ self with _lastTry := env.now }, true, [], []⟩
        else ⟨self, false, [], []⟩ := by
  unfold loop
  rw [if_pos h]

theorem loop_link_up (lib : ArduinoJson) (self : TeleBot) (env : Tick)
    (h : ¬ (self._autoReconnect && !env.linkFirst) = true) :
    (loop lib self env).reconnect = false ∧
    (loop lib self env).bot._lastTry = self._lastTry ∧
    (loop lib self env).bot._reconnectTime = self._reconnectTime := by
  unfold loop
  rw [if_neg h]
  dsimp only
  have hf := getUpdates_frame lib self env.client
  split_ifs <;> (try split) <;> simp <;> rw [hf] <;> simp

theorem loop_reconnectTime (lib : ArduinoJson) (self : TeleBot) (env : Tick) :
    (loop lib self env).bot._reconnectTime = self._reconnectTime := by
  by_cases h : (self._autoReconnect && !env.linkFirst) = true
  · rw [loop_link_down lib self env h]
    split_ifs <;> rfl
  · exact (loop_link_up lib self env h).2.2

theorem loop_lastTry (lib : ArduinoJson) (self : TeleBot) (env : Tick) :
    (loop lib self env).bot._lastTry
      = if (loop lib self env).reconnect then env.now else self._lastTry := by
  by_cases h : (self._autoReconnect && !env.linkFirst) = true
  · rw [loop_link_down lib self env h]
    split_ifs <;> simp_all
  · obtain ⟨h1, h2, _⟩ := loop_link_up lib self env h
    rw [h1, h2]; simp

theorem loop_reconnect_iff (lib : ArduinoJson) (self : TeleBot) (env : Tick) :
    (loop lib self env).reconnect = true ↔
      (self._autoReconnect = true ∧ env.linkFirst = false ∧
        self._reconnectTime < subU32 env.now self._lastTry) := by
  by_cases h : (self._autoReconnect && !env.linkFirst) = true
  · rw [loop_link_down lib self env h]
    simp only [Bool.and_eq_true, Bool.not_eq_true'] at h
    split_ifs with h2
    · simp only [true_iff]; exact ⟨h.1, h.2, h2⟩
    · simp only [Bool.false_eq_true, false_iff]; exact fun hh => h2 hh.2.2
  · obtain ⟨h1, _, _⟩ := loop_link_up lib self env h
    rw [h1]
    simp only [Bool.and_eq_true, Bool.not_eq_true'] at h
    simp only [Bool.false_eq_true, false_iff]
    exact fun hh => h ⟨hh.1, hh.2.1⟩

theorem subU32_of_le (a b : Nat) (ha : a < U32) (hb : b ≤ a) : subU32 a b = a - b := by
  unfold subU32
  have hb1 : b < U32 := by omega
  rw [Nat.mod_eq_of_lt ha, Nat.mod_eq_of_lt hb1]
  have h : a + U32 - b = (a - b) + U32 := by omega
  rw [h, Nat.add_mod_right, Nat.mod_eq_of_lt (by omega)]

theorem attempts_after_lastTry (lib : ArduinoJson) (envs : List Tick) :
    ∀ bot : TeleBot,
      (∀ e ∈ envs, e.now < U32 ∧ bot._lastTry ≤ e.now) →
      List.Pairwise (fun a b => a ≤ b) (envs.map (fun e => e.now)) →
      ∀ call ∈ runLoop lib bot envs, call.2.reconnect = true →
        bot._lastTry + bot._reconnectTime < call.1.now := by
  induction envs with
  | nil => intro bot _ _ call hc; cases hc
  | cons env rest ih =>
    intro bot hb hs call hc hr
    simp only [runLoop, List.mem_cons] at hc
    obtain ⟨hnow, hle⟩ := hb env (List.mem_cons_self _ _)
    rcases hc with hc | hc
    · subst hc
      have h := (loop_reconnect_iff lib bot env).mp hr
      rw [subU32_of_le env.now bot._lastTry hnow hle] at h
      simp only
      omega
    · simp only [List.map_cons, List.pairwise_cons] at hs
      have hlt := loop_lastTry lib bot env
      have hrt := loop_reconnectTime lib bot env
      have hrest : ∀ e ∈ rest, e.now < U32 ∧ (loop lib bot env).bot._lastTry ≤ e.now := by
        intro e he
        refine ⟨(hb e (List.mem_cons_of_mem _ he)).1, ?_⟩
        rw [hlt]
        split_ifs
        · exact hs.1 e.now (List.mem_map_of_mem _ he)
        · exact (hb e (List.mem_cons_of_mem _ he)).2
      have := ih (loop lib bot env).bot hrest hs.2 call hc hr
      rw [hrt, hlt] at this
      split_ifs at this <;> omega

theorem attempts_pairwise_apart (lib : ArduinoJson) (envs : List Tick) :
    ∀ bot : TeleBot,
      (∀ e ∈ envs, e.now < U32) →
      List.Pairwise (fun a b => a ≤ b) (envs.map (fun e => e.now)) →
      List.Pairwise
        (fun a b => a.2.reconnect = true → b.2.reconnect = true →
          a.1.now + bot._reconnectTime < b.1.now)
        (runLoop lib bot envs) := by
  induction envs with
  | nil => intro bot _ _; exact List.Pairwise.nil
  | cons env rest ih =>
    intro bot hb hs
    simp only [List.map_cons, List.pairwise_cons] at hs
    simp only [runLoop, List.pairwise_cons]
    have hrt := loop_reconnectTime lib bot env
    refine ⟨?_, ?_⟩
    · intro call hc hr1 hr2
      have hlt := loop_lastTry lib bot env
      rw [hr1, if_pos rfl] at hlt
      have := attempts_after_lastTry lib rest (loop lib bot env).bot
        (fun e he => ⟨hb e (List.mem_cons_of_mem _ he), by
          rw [hlt]; exact hs.1 e.now (List.mem_map_of_mem _ he)⟩)
        hs.2 call hc hr2
      rw [hlt, hrt] at this
      exact this
    · have := ih (loop lib bot env).bot (fun e he => hb e (List.mem_cons_of_mem _ he)) hs.2
      rw [hrt] at this
      exact this

theorem runLoop_tick_mem (lib : ArduinoJson) (envs : List Tick) :
    ∀ bot : TeleBot, ∀ call ∈ runLoop lib bot envs, call.1 ∈ envs := by
  induction envs with
  | nil => intro bot call hc; cases hc
  | cons env rest ih =>
    intro bot call hc
    simp only [runLoop, List.mem_cons] at hc
    rcases hc with hc | hc
    · subst hc; exact List.mem_cons_self _ _
    · exact List.mem_cons_of_mem _ (ih _ call hc)

/-- C8: a sequence of `loop()` calls with reconnect interval `I` and clock
readings that are 32-bit and never decrease.  Any two calls that each attempt
a reconnect have readings more than `I` apart (also as the difference modulo
`2 ^ 32` the code computes), so calls whose readings all lie in a window
shorter than `I` attempt at most one reconnect.  A call attempts a reconnect
only when auto-reconnect is enabled and the link is down, and an attempt sets
`_lastTry` to the current reading; `WiFi.reconnect()` returns nothing the code
looks at. -/
theorem reconnect_attempts_more_than_interval_apart (lib : ArduinoJson) (self : TeleBot)
    (envs : List Tick)
    (hclock : List.Pairwise (fun a b => a ≤ b) (envs.map (fun e => e.now)))
    (h32 : ∀ e ∈ envs, e.now < U32) :
    List.Pairwise
      (fun a b => a.2.reconnect = true → b.2.reconnect = true →
        a.1.now + self._reconnectTime < b.1.now ∧
        self._reconnectTime < subU32 b.1.now a.1.now)
      (runLoop lib self envs) ∧
    ((∀ a ∈ envs, ∀ b ∈ envs, b.now < a.now + self._reconnectTime) →
      (attempts (runLoop lib self envs)).length ≤ 1) ∧
    (∀ (bot : TeleBot) (env : Tick), (loop lib bot env).reconnect = true →
      bot._autoReconnect = true ∧ env.linkFirst = false ∧
      (loop lib bot env).bot._lastTry = env.now ∧
      (loop lib bot env).bot._reconnectTime = bot._reconnectTime) := by
  have hpair := attempts_pairwise_apart lib envs self h32 hclock
  refine ⟨?_, ?_, ?_⟩
  · have hmem : ∀ call ∈ runLoop lib self envs, call.1.now < U32 :=
      fun call hc => h32 _ (runLoop_tick_mem lib envs self call hc)
    have hboth : List.Pairwise
        (fun a b : Tick × Outcome => (a.1.now < U32 ∧ b.1.now < U32) ∧
          (a.2.reconnect = true → b.2.reconnect = true →
            a.1.now + self._reconnectTime < b.1.now))
        (runLoop lib self envs) :=
      List.Pairwise.and (List.pairwise_of_forall_mem_list
        (fun a ha b hb => ⟨hmem a ha, hmem b hb⟩)) hpair
    refine hboth.imp ?_
    intro a b h hr1 hr2
    have h1 := h.2 hr1 hr2
    refine ⟨h1, ?_⟩
    rw [subU32_of_le b.1.now a.1.now h.1.2 (by omega)]
    omega
  · intro hwin
    have hsub : List.Pairwise
        (fun a b : Tick × Outcome => a.2.reconnect = true → b.2.reconnect = true →
          a.1.now + self._reconnectTime < b.1.now)
        (attempts (runLoop lib self envs)) :=
      hpair.sublist (List.filter_sublist _)
    have hatt : ∀ call ∈ attempts (runLoop lib self envs),
        call.2.reconnect = true ∧ call.1 ∈ envs := by
      intro call hc
      have := List.mem_filter.mp hc
      exact ⟨this.2, runLoop_tick_mem lib envs self call this.1⟩
    match hm : attempts (runLoop lib self envs) with
    | [] => simp
    | [_] => simp
    | a :: b :: rest =>
      rw [hm] at hsub hatt
      have ha := hatt a (List.mem_cons_self _ _)
      have hb := hatt b (List.mem_cons_of_mem _ (List.mem_cons_self _ _))
      have h1 := (List.pairwise_cons.mp hsub).1 b (List.mem_cons_self _ _) ha.1 hb.1
      have h2 := hwin a.1 ha.2 b.1 hb.2
      omega
  · intro bot env hr
    have h := (loop_reconnect_iff lib bot env).mp hr
    have hlt := loop_lastTry lib bot env
    rw [hr, if_pos rfl] at hlt
    exact ⟨h.1, h.2.1, hlt, loop_reconnectTime lib bot env⟩

/-- Witness of C8: six calls with the link down at readings 31000, 31100,
40000, 61000, 61050 and 91001, interval 30000; only the first and the fifth
attempt a reconnect. -/
theorem reconnect_attempts_more_than_interval_apart_witness :
    (runLoop sampleJson sampleBot
      [tickDown 31000, tickDown 31100, tickDown 40000, tickDown 61000, tickDown 61050,
        tickDown 91001]).map (fun call => call.2.reconnect)
      = [true, false, false, false, true, false] ∧
    List.Pairwise
      (fun a b => a.2.reconnect = true → b.2.reconnect = true →
        a.1.now + sampleBot._reconnectTime < b.1.now ∧
        sampleBot._reconnectTime < subU32 b.1.now a.1.now)
      (runLoop sampleJson sampleBot
        [tickDown 31000, tickDown 31100, tickDown 40000, tickDown 61000, tickDown 61050,
          tickDown 91001]) :=
  ⟨by decide,
   (reconnect_attempts_more_than_interval_apart sampleJson sampleBot
      [tickDown 31000, tickDown 31100, tickDown 40000, tickDown 61000, tickDown 61050,
        tickDown 91001] (by decide) (by decide)).1⟩

/-! ### The command table -/

theorem take_succ_set {α : Type} (x : α) : ∀ (l : List α) (n : Nat), n < l.length →
    (l.set n x).take (n + 1) = l.take n ++ [x] := by
  intro l
  induction l with
  | nil => intro n h; simp at h
  | cons a rest ih =>
    intro n h
    cases n with
    | zero => simp
    | succ m =>
      simp only [List.length_cons] at h
      simp only [List.set_cons_succ, List.take_succ_cons, List.cons_append]
      rw [ih m (by omega)]

theorem com_invariant (self : TeleBot) (command : Str) (handler : Handler)
    (hslots : self._comHandlers.length = 15) (hcount : self._comCount ≤ 15) :
    (com self command handler)._comHandlers.length = 15 ∧
    (com self command handler)._comCount ≤ 15 := by
  unfold com
  split_ifs with h
  · simp only [List.length_set]
    exact ⟨hslots, by omega⟩
  · exact ⟨hslots, hcount⟩

theorem com_appends (self : TeleBot) (command : Str) (handler : Handler)
    (hslots : self._comHandlers.length = 15) (h : self._comCount < 15) :
    (com self command handler)._comCount = self._comCount + 1 ∧
    table (com self command handler) = table self ++ [⟨command, handler⟩] := by
  unfold table com
  rw [if_pos h]
  exact ⟨rfl, take_succ_set _ _ _ (by omega)⟩

theorem registerAll_table (regs : List (Str × Handler)) : ∀ self : TeleBot,
    self._comHandlers.length = 15 → self._comCount ≤ 15 →
    (registerAll self regs)._comHandlers.length = 15 ∧
    (registerAll self regs)._comCount ≤ 15 ∧
    table (registerAll self regs)
      = (table self ++ regs.map (fun reg => ComHandler.mk reg.1 reg.2)).take 15 := by
  induction regs with
  | nil =>
    intro self hslots hcount
    refine ⟨hslots, hcount, ?_⟩
    simp only [registerAll, List.foldl_nil, List.map_nil, List.append_nil]
    unfold table
    rw [List.take_take]
    congr 1
    omega
  | cons reg rest ih =>
    intro self hslots hcount
    obtain ⟨h1, h2⟩ := com_invariant self reg.1 reg.2 hslots hcount
    obtain ⟨i1, i2, i3⟩ := ih (com self reg.1 reg.2) h1 h2
    refine ⟨i1, i2, ?_⟩
    have hfold : registerAll self (reg :: rest) = registerAll (com self reg.1 reg.2) rest := rfl
    rw [hfold, i3]
    by_cases h : self._comCount < 15
    · rw [(com_appends self reg.1 reg.2 hslots h).2]
      simp
    · have hfull : com self reg.1 reg.2 = self := by
        unfold com; rw [if_neg h]
      have hlen : (table self).length = 15 := by
        unfold table
        rw [List.length_take]
        omega
      rw [hfull, List.take_append_of_le_length (by omega),
        List.take_append_of_le_length (by omega)]

/-- C9: the command table holds between 0 and 15 entries after any sequence of
`com()` calls, namely the first 15 registrations in order.  A `com()` call made
with 15 entries held changes nothing: the object, and so the table and the
count, stay as they are.  A `com()` call made with fewer than 15 entries
appends `(command, handler)` as the last entry, adds one to the count and
leaves the earlier entries as they are. -/
theorem com_appends_until_fifteen (self : TeleBot) (command : Str) (handler : Handler)
    (hslots : self._comHandlers.length = 15) (hcount : self._comCount ≤ 15) :
    (self._comCount = 15 → com self command handler = self) ∧
    (self._comCount < 15 →
      (com self command handler)._comCount = self._comCount + 1 ∧
      table (com self command handler) = table self ++ [⟨command, handler⟩]) ∧
    (∀ regs : List (Str × Handler),
      (registerAll self regs)._comCount ≤ 15 ∧
      (table (registerAll self regs)).length = (registerAll self regs)._comCount ∧
      table (registerAll self regs)
        = (table self ++ regs.map (fun reg => ComHandler.mk reg.1 reg.2)).take 15) := by
  refine ⟨?_, ?_, ?_⟩
  · intro h
    unfold com
    rw [if_neg (by omega)]
  · intro h
    exact com_appends self command handler hslots h
  · intro regs
    obtain ⟨h1, h2, h3⟩ := registerAll_table regs self hslots hcount
    refine ⟨h2, ?_, h3⟩
    unfold table
    rw [List.length_take]
    omega

/-- Witness of C9: sixteen registrations on a new object leave 15 entries, the
sixteenth call being without effect. -/
theorem com_appends_until_fifteen_witness :
    sampleBot._comHandlers.length = 15 ∧ sampleBot._comCount ≤ 15 ∧
    (registerAll sampleBot sixteenCommands)._comCount = 15 ∧
    table (registerAll sampleBot sixteenCommands)
      = (sixteenCommands.take 15).map (fun reg => ComHandler.mk reg.1 reg.2) ∧
    com (registerAll sampleBot (sixteenCommands.take 15)) (ascii "/c15") 215
      = registerAll sampleBot (sixteenCommands.take 15) :=
  ⟨by decide, by decide,
   by
    have h := ((com_appends_until_fifteen sampleBot [] 0 (by decide) (by decide)).2.2
      sixteenCommands).2.1
    rw [← h]
    decide,
   (((com_appends_until_fifteen sampleBot [] 0 (by decide) (by decide)).2.2
      sixteenCommands).2.2).trans (by decide),
   (com_appends_until_fifteen (registerAll sampleBot (sixteenCommands.take 15)) (ascii "/c15") 215
      (by decide) (by decide)).1 (by decide)⟩

/-! ### Requests -/

theorem isTrue_iff (v : Json) : v.isTrue = true ↔ v = Json.bool true := by
  cases v <;> simp [Json.isTrue]

/-- C10: `_request` returns true exactly when the connection opened, the body
received after the headers decoded without error (in the 512-byte document)
and the "ok" field of the decoded body is the boolean true.  When the
connection cannot be opened it returns false and writes nothing.  An
undecodable body returns false, and so does a timeout without data, the empty
body being one the decoder rejects. -/
theorem request_true_iff_connected_decoded_ok (lib : ArduinoJson) (self : TeleBot)
    (client : Client) (method params response : Str) :
    ((_request lib self client method params response).ok = true ↔
      (client.connect = true ∧
        ∃ doc : Json, lib.deserializeJson 512 (readBody [] client.incoming) = Except.ok doc ∧
          doc.asObject.get (ascii "ok") = Json.bool true)) ∧
    (client.connect = false →
      (_request lib self client method params response).ok = false ∧
      (_request lib self client method params response).written = [] ∧
      (_request lib self client method params response).response = response) ∧
    (∀ e : Str, lib.deserializeJson 512 (readBody [] client.incoming) = Except.error e →
      (_request lib self client method params response).ok = false) ∧
    (∀ e : Str, lib.deserializeJson 512 [] = Except.error e → client.incoming = [] →
      (_request lib self client method params response).ok = false) := by
  have hund : ∀ e : Str, lib.deserializeJson 512 (readBody [] client.incoming) = Except.error e →
      (_request lib self client method params response).ok = false := by
    intro e he
    unfold _request
    split_ifs
    · rfl
    · simp only [he]
  refine ⟨?_, ?_, hund, ?_⟩
  · constructor
    · intro h
      cases hc : client.connect with
      | false =>
        simp [_request, hc] at h
      | true =>
        refine ⟨rfl, ?_⟩
        simp only [_request, hc, Bool.not_true, Bool.false_eq_true, if_false] at h
        split at h
        · rename_i doc hd
          exact ⟨doc, hd, (isTrue_iff _).mp h⟩
        · cases h
    · rintro ⟨hc, doc, hd, hok⟩
      unfold _request
      simp only [hc, Bool.not_true, Bool.false_eq_true, if_false, hd]
      exact (isTrue_iff _).mpr hok
  · intro hc
    simp [_request, hc]
  · intro e he hin
    apply hund e
    rw [hin]
    exact he

/-- Witness of C10: a reply whose body is the object with `ok` true gives
true; a refused connection gives false with nothing written; no data gives
false. -/
theorem request_true_iff_connected_decoded_ok_witness :
    (_request sampleJson sampleBot ⟨true, httpReply (ascii "\x7b\"ok\":true\x7d")⟩
      (ascii "sendMessage") (ascii "chat_id=42&text=hi") []).ok = true ∧
    (_request sampleJson sampleBot ⟨false, []⟩
      (ascii "sendMessage") (ascii "chat_id=42&text=hi") []).written = [] ∧
    (_request sampleJson sampleBot ⟨true, []⟩
      (ascii "sendMessage") (ascii "chat_id=42&text=hi") []).ok = false :=
  ⟨(request_true_iff_connected_decoded_ok sampleJson sampleBot
      ⟨true, httpReply (ascii "\x7b\"ok\":true\x7d")⟩
      (ascii "sendMessage") (ascii "chat_id=42&text=hi") []).1.mpr
      ⟨rfl, Json.obj [(ascii "ok", Json.bool true)], by rfl, by rfl⟩,
   ((request_true_iff_connected_decoded_ok sampleJson sampleBot ⟨false, []⟩
      (ascii "sendMessage") (ascii "chat_id=42&text=hi") []).2.1 rfl).2.1,
   (request_true_iff_connected_decoded_ok sampleJson sampleBot ⟨true, []⟩
      (ascii "sendMessage") (ascii "chat_id=42&text=hi") []).2.2.2
      (ascii "EmptyInput") (by rfl) rfl⟩

/-! ### Injectivity of the escaping -/

theorem unescape_image (x : Byte) (t : Str) :
    unescapeFrom Escape.outside (encodeImage x ++ t) = x :: unescapeFrom Escape.outside t := by
  have h1 : ∀ x : Byte, isUnreserved x → x ≠ ch '%' ∧ x ≠ ch '+' := by decide
  have h2 : ∀ x : Byte,
      (Fin.ofNat (16 * hexValue (hexDigit (x.val / 16)) + hexValue (hexDigit (x.val % 16))) : Byte)
        = x := by decide
  have h3 : ch '+' ≠ ch '%' := by decide
  unfold encodeImage
  split_ifs with hu hs
  · obtain ⟨ha, hb⟩ := h1 x hu
    simp [unescapeFrom, ha, hb]
  · simp [unescapeFrom, h3, hs]
  · simp [unescapeFrom, h2]

theorem unescape_encode (s : Str) : unescape (_encode s) = s := by
  unfold _encode unescape
  rw [foldl_encodeStep]
  simp only [List.nil_append]
  induction s with
  | nil => rfl
  | cons x rest ih =>
    simp only [List.map_cons, List.flatten_cons]
    rw [unescape_image, ih]

/-- C17: `_encode` is injective: byte strings with the same escaped form are
equal.  The escaped form decodes back to the string it came from, each `+`
being a space, each `%` starting a three-byte escape and every other byte
standing for itself. -/
theorem encode_injective (a b : Str) (h : _encode a = _encode b) :
    a = b ∧ unescape (_encode a) = a := by
  refine ⟨?_, unescape_encode a⟩
  have := congrArg unescape h
  rwa [unescape_encode, unescape_encode] at this

/-- Witness of C17: two spellings of the string "a+ b%" have the same escaped
form "a%2b+b%25" and are the same string. -/
theorem encode_injective_witness :
    _encode (ascii "a+ b%") = _encode [97, 43, 32, 98, 37] ∧
    _encode (ascii "a+ b%") = ascii "a%2b+b%25" ∧
    ascii "a+ b%" = [97, 43, 32, 98, 37] :=
  ⟨by decide, by decide, (encode_injective (ascii "a+ b%") [97, 43, 32, 98, 37] (by decide)).1⟩

/-! ### The poll request -/

theorem digitChar_byte : ∀ k : Nat, k < 10 →
    (ch (Nat.digitChar k)).val - 48 = k ∧ 48 ≤ (ch (Nat.digitChar k)).val ∧
      (ch (Nat.digitChar k)).val ≤ 57 := by
  decide

theorem toDigitsCore_value (fuel : Nat) : ∀ (n : Nat) (ds : List Char), n < fuel →
    ((Nat.toDigitsCore 10 fuel n ds).map ch).foldl (fun acc d => 10 * acc + (d.val - 48)) 0
      = (ds.map ch).foldl (fun acc d => 10 * acc + (d.val - 48)) n := by
  induction fuel with
  | zero => intro n ds h; omega
  | succ fuel ih =>
    intro n ds h
    have hd := (digitChar_byte (n % 10) (Nat.mod_lt n (by norm_num))).1
    unfold Nat.toDigitsCore
    simp only
    split_ifs with h0
    · have hn : n % 10 = n := by omega
      simp only [List.map_cons, List.foldl_cons, Nat.mul_zero, Nat.zero_add]
      rw [hd, hn]
    · rw [ih (n / 10) _ (by omega)]
      simp only [List.map_cons, List.foldl_cons, hd]
      congr 1
      omega

theorem toDigitsCore_digits (fuel : Nat) : ∀ (n : Nat) (ds : List Char),
    (∀ c ∈ ds, 48 ≤ (ch c).val ∧ (ch c).val ≤ 57) →
    ∀ c ∈ Nat.toDigitsCore 10 fuel n ds, 48 ≤ (ch c).val ∧ (ch c).val ≤ 57 := by
  induction fuel with
  | zero => intro n ds h; simpa [Nat.toDigitsCore] using h
  | succ fuel ih =>
    intro n ds h
    have hd := (digitChar_byte (n % 10) (Nat.mod_lt n (by norm_num))).2
    have hcons : ∀ c ∈ Nat.digitChar (n % 10) :: ds, 48 ≤ (ch c).val ∧ (ch c).val ≤ 57 := by
      intro c hc
      rcases List.mem_cons.mp hc with h1 | h1
      · rw [h1]; exact hd
      · exact h c h1
    unfold Nat.toDigitsCore
    simp only
    split_ifs with h0
    · exact hcons
    · exact ih (n / 10) _ hcons

theorem stringOfInt_decimal (n : Nat) :
    decimalValue (stringOfInt n 10) = n ∧ isDecimal (stringOfInt n 10) := by
  constructor
  · unfold decimalValue stringOfInt Nat.toDigits
    rw [toDigitsCore_value (n + 1) n [] (by omega)]
    rfl
  · intro d hd
    unfold stringOfInt Nat.toDigits at hd
    obtain ⟨c, hc, rfl⟩ := List.mem_map.mp hd
    exact toDigitsCore_digits (n + 1) n [] (by intro c hc; cases hc) c hc

/-- Counterexample to C13 as stated: at the cursor 2147483647, the greatest
`long`, the sum `_lastID + 1` wraps and the path ends in
"&offset=-2147483648", not in the decimal form of 2147483648. -/
theorem getUpdatesUrl_wraps_at_LONG_MAX :
    getUpdatesUrl { _token := ascii "123:abc", _lastID := 2147483647 }
      = pollPath (ascii "123:abc") ++ ascii "&offset=-2147483648" ∧
    getUpdatesUrl { _token := ascii "123:abc", _lastID := 2147483647 }
      ≠ pollPath (ascii "123:abc") ++ (ascii "&offset=" ++ stringOfInt (2147483647 + 1) 10) := by
  decide

/-- C13, amended: for every token `t` and cursor `c`, the request path built by
`_getUpdates` (the one of its "GET" line) is "/bot" ++ t ++
"/getUpdates?timeout=5" when `c = 0`, and that string followed by "&offset="
and the decimal digits of `c + 1` whenever `0 < c < 2147483647`; the offset
requested is then the least id strictly greater than the cursor. -/
theorem getUpdatesUrl_offset_is_cursor_plus_one (self : TeleBot) :
    (self._lastID = 0 → getUpdatesUrl self = pollPath self._token) ∧
    (0 < self._lastID → self._lastID < LONG_MAX →
      ∃ digits : Str,
        getUpdatesUrl self = pollPath self._token ++ (ascii "&offset=" ++ digits) ∧
        isDecimal digits ∧
        (decimalValue digits : Int) = self._lastID + 1 ∧
        digits = stringOfInt (self._lastID + 1).toNat 10 ∧
        (∀ id : Int, (decimalValue digits : Int) ≤ id ↔ self._lastID < id)) ∧
    pollPath self._token = ascii "/bot" ++ self._token ++ ascii "/getUpdates?timeout=5" ∧
    (∀ (lib : ArduinoJson) (client : Client), client.connect = true →
      (_getUpdates lib self client).written.head?
        = some (ascii "GET " ++ getUpdatesUrl self ++ ascii " HTTP/1.1" ++ ascii "\r\n")) := by
  refine ⟨?_, ?_, rfl, ?_⟩
  rotate_left 2
  · intro lib client hc
    unfold _getUpdates
    rw [if_pos hc]
    dsimp only
    split <;> rfl
  · intro h
    simp [getUpdatesUrl, h, pollPath]
  · intro hpos hmax
    have hadd : addLong self._lastID 1 = self._lastID + 1 := by
      unfold addLong LONG_MIN
      unfold LONG_MAX at hmax
      omega
    have hnn : ¬ (self._lastID + 1 < 0) := by omega
    obtain ⟨hv, hd⟩ := stringOfInt_decimal (self._lastID + 1).toNat
    refine ⟨stringOfInt (self._lastID + 1).toNat 10, ?_, hd, ?_, rfl, ?_⟩
    · simp only [getUpdatesUrl, hpos, if_true, hadd, stringOfLong, hnn, if_false, pollPath]
    · rw [hv]; omega
    · intro id
      rw [hv]; omega

/-- Witness of C13: cursor 0 gives the bare path, cursor 6 gives offset 7. -/
theorem getUpdatesUrl_offset_is_cursor_plus_one_witness :
    getUpdatesUrl { _token := ascii "123:abc" } = ascii "/bot123:abc/getUpdates?timeout=5" ∧
    (∃ digits : Str,
      getUpdatesUrl sampleBot = pollPath sampleBot._token ++ (ascii "&offset=" ++ digits) ∧
      isDecimal digits ∧
      (decimalValue digits : Int) = sampleBot._lastID + 1 ∧
      digits = stringOfInt (sampleBot._lastID + 1).toNat 10 ∧
      (∀ id : Int, (decimalValue digits : Int) ≤ id ↔ sampleBot._lastID < id)) ∧
    getUpdatesUrl sampleBot = ascii "/bot123:abc/getUpdates?timeout=5&offset=7" :=
  ⟨((getUpdatesUrl_offset_is_cursor_plus_one { _token := ascii "123:abc" }).1 rfl).trans
      (by decide),
   (getUpdatesUrl_offset_is_cursor_plus_one sampleBot).2.1 (by decide) (by decide),
   by decide⟩

/-! ### The command token -/

theorem takeWhile_split (p : Byte → Bool) (text : Str) :
    (∀ b ∈ text.takeWhile p, p b = true) ∧
    (text.dropWhile p = [] ∨ ∃ c rest, text.dropWhile p = c :: rest ∧ p c = false) := by
  induction text with
  | nil => exact ⟨(by intro b hb; cases hb), Or.inl rfl⟩
  | cons a rest ih =>
    by_cases ha : p a = true
    · simp only [List.takeWhile_cons, List.dropWhile_cons, ha, if_true]
      refine ⟨?_, ih.2⟩
      intro b hb
      rcases List.mem_cons.mp hb with h | h
      · rw [h]; exact ha
      · exact ih.1 b h
    · simp only [List.takeWhile_cons, List.dropWhile_cons, ha]
      refine ⟨(by intro b hb; cases hb), Or.inr ⟨a, rest, rfl, by simpa using ha⟩⟩

theorem commandOf_spaceToken (text : Str) (hstart : startsWith text (ascii "/") = true) :
    commandOf text = spaceToken text := by
  unfold spaceToken
  obtain ⟨htake, hdrop⟩ := takeWhile_split (fun b => b != SPACE) text
  have hsplit := List.takeWhile_append_dropWhile (fun b => b != SPACE) text
  have hsp : ∀ b ∈ text.takeWhile (fun b => b != SPACE), b ≠ SPACE := by
    intro b hb
    simpa using htake b hb
  have hne : text.takeWhile (fun b => b != SPACE) ≠ [] := by
    cases text with
    | nil => exact absurd hstart (by decide)
    | cons a rest =>
      have ha : a = ch '/' := by simpa [startsWith, ascii] using hstart
      subst ha
      have : (ch '/' != SPACE) = true := by decide
      simp [List.takeWhile_cons, this]
  rcases hdrop with h | ⟨c, rest, h, hc⟩
  · rw [h, List.append_nil] at hsplit
    exact commandOf_token _ [] text hne hsp (Or.inl hsplit.symm)
  · have hc1 : c = SPACE := by simpa using hc
    rw [h, hc1] at hsplit
    exact commandOf_token _ rest text hne hsp (Or.inr hsplit.symm)

/-- Counterexample to C14 as stated: with a handler bound to "/start", the
texts "/start\nhello" and "/start\thello" do not reach it.  The token looked
up is the whole text, and the only call is the generic handler. -/
theorem processMsg_newline_tab_not_split :
    commandOf startNewlineHello = startNewlineHello ∧
    commandOf startTabHello = startTabHello ∧
    findCommand commandBot (ascii "/start") = some 0 ∧
    _processMsg sampleJson commandBot (textMessage startNewlineHello)
      = [⟨Site.message, 103, msgOfMessage sampleJson (textMessage startNewlineHello)⟩] ∧
    _processMsg sampleJson commandBot (textMessage startTabHello)
      = [⟨Site.message, 103, msgOfMessage sampleJson (textMessage startTabHello)⟩] := by
  decide

/-- C14, amended: for every message text that begins with "/", the command
token `_processMsg` looks up in the command table is the part of the text
before its first space, or the whole text when it holds no space; a tab or a
newline does not end the token.  The call made is that of the first table
entry equal to this token, else the generic handler when registered. -/
theorem processMsg_token_ends_at_first_space (lib : ArduinoJson) (self : TeleBot)
    (msgObj : JsonObject) (text : Str)
    (hstart : startsWith text (ascii "/") = true)
    (hobj : msgObj.lookup (ascii "text") = some (Json.str text)) :
    commandOf text = spaceToken text ∧
    ((∀ b ∈ text, b ≠ SPACE) → commandOf text = text) ∧
    (∀ T rest : Str, (∀ b ∈ T, b ≠ SPACE) → text = T ++ SPACE :: rest → commandOf text = T) ∧
    _processMsg lib self msgObj
      = (match findCommand self (spaceToken text) with
        | some i =>
          [⟨Site.command i, (self._comHandlers.getD i ⟨[], NULL⟩).handler, msgOfMessage lib msgObj⟩]
        | none =>
          if self._msgHandler != NULL then
            [⟨Site.message, self._msgHandler, msgOfMessage lib msgObj⟩]
          else []) := by
  have hcmd := commandOf_spaceToken text hstart
  have hmsg := msgOfMessage_text lib msgObj text hobj
  have hne : text ≠ [] := by
    intro h; rw [h] at hstart; exact absurd hstart (by decide)
  refine ⟨hcmd, ?_, ?_, ?_⟩
  · intro hsp
    exact commandOf_token text [] text hne hsp (Or.inl rfl)
  · intro T rest hsp htext
    have hT : T ≠ [] := by
      intro h
      subst h
      rw [htext] at hstart
      have h2 : SPACE = ch '/' := by simpa [startsWith, ascii] using hstart
      exact absurd h2 (by decide)
    exact commandOf_token T rest text hT hsp (Or.inr htext)
  · simp only [_processMsg, hmsg, hstart, if_true, hcmd]

/-- Witness of C14: with a handler bound to "/start", the text "/start hello"
is looked up as "/start" and reaches that handler. -/
theorem processMsg_token_ends_at_first_space_witness :
    commandOf (ascii "/start hello") = ascii "/start" ∧
    _processMsg sampleJson commandBot (textMessage (ascii "/start hello"))
      = [⟨Site.command 0, 101, msgOfMessage sampleJson (textMessage (ascii "/start hello"))⟩] :=
  ⟨(processMsg_token_ends_at_first_space sampleJson commandBot
      (textMessage (ascii "/start hello")) (ascii "/start hello") (by decide) (by rfl)).1.trans
      (by decide),
   (processMsg_token_ends_at_first_space sampleJson commandBot
      (textMessage (ascii "/start hello")) (ascii "/start hello") (by decide) (by rfl)).2.2.2.trans
      (by decide)⟩

/-! ### Polling behind the link check -/

theorem loop_idle (lib : ArduinoJson) (self : TeleBot) (env : Tick)
    (h1 : ¬ (self._autoReconnect && !env.linkFirst) = true)
    (h2 : env.linkSecond = false ∨ ¬ self._checkTime < subU32 env.now self._lastCheck) :
    loop lib self env = ⟨self, false, [], []⟩ := by
  unfold loop
  rw [if_neg h1]
  rcases h2 with h | h
  · simp [h]
  · have h3 : ¬ subU32 env.now self._lastCheck > self._checkTime := h
    by_cases hs : env.linkSecond = true
    · rw [if_pos hs, if_neg h3]
    · rw [if_neg hs]

theorem loop_link_down_quiet (lib : ArduinoJson) (self : TeleBot) (env : Tick)
    (h : (self._autoReconnect && !env.linkFirst) = true) :
    (loop lib self env).written = [] ∧ (loop lib self env).calls = [] ∧
    (loop lib self env).bot._lastID = self._lastID ∧
    (loop lib self env).bot._lastCheck = self._lastCheck := by
  rw [loop_link_down lib self env h]
  split_ifs <;> exact ⟨rfl, rfl, rfl, rfl⟩

theorem loop_active (lib : ArduinoJson) (self : TeleBot) (env : Tick)
    (h : loop lib self env ≠ ⟨self, false, [], []⟩)
    (hq : ¬ ((loop lib self env).written = [] ∧ (loop lib self env).calls = [] ∧
      (loop lib self env).bot._lastID = self._lastID ∧
      (loop lib self env).bot._lastCheck = self._lastCheck)) :
    env.linkSecond = true ∧ (self._autoReconnect = true → env.linkFirst = true) ∧
    self._checkTime < subU32 env.now self._lastCheck := by
  by_cases h1 : (self._autoReconnect && !env.linkFirst) = true
  · exact absurd (loop_link_down_quiet lib self env h1) hq
  · have h2 : ¬ (env.linkSecond = false ∨ ¬ self._checkTime < subU32 env.now self._lastCheck) :=
      fun h2 => h (loop_idle lib self env h1 h2)
    have h3 : env.linkSecond = true := by
      cases hs : env.linkSecond with
      | true => rfl
      | false => exact absurd (Or.inl hs) h2
    have h4 : self._checkTime < subU32 env.now self._lastCheck := by
      by_contra hc
      exact h2 (Or.inr hc)
    refine ⟨h3, ?_, h4⟩
    intro ha
    cases hf : env.linkFirst with
    | true => rfl
    | false => exact absurd (by simp [ha, hf]) h1

/-- C15: in a `loop()` call whose link check reports not connected (the first
`isWiFi()` with auto-reconnect enabled, or the second), no request is written
to the client, no handler is called and the cursor is unchanged.  A request is
written, a handler is called, the cursor moves or the poll time is recorded
only in a call where every link check made reports connected and more than
`_checkTime` has passed since `_lastCheck`, the reading of the last poll. -/
theorem loop_polls_only_with_link_up (lib : ArduinoJson) (self : TeleBot) (env : Tick) :
    (((self._autoReconnect = true ∧ env.linkFirst = false) ∨ env.linkSecond = false) →
      (loop lib self env).written = [] ∧ (loop lib self env).calls = [] ∧
      lastUpdate (loop lib self env).bot = lastUpdate self) ∧
    (((loop lib self env).written ≠ [] ∨ (loop lib self env).calls ≠ [] ∨
        lastUpdate (loop lib self env).bot ≠ lastUpdate self ∨
        (loop lib self env).bot._lastCheck ≠ self._lastCheck) →
      env.linkSecond = true ∧ (self._autoReconnect = true → env.linkFirst = true) ∧
      self._checkTime < subU32 env.now self._lastCheck) ∧
    ((env.linkSecond = true ∧ (self._autoReconnect = true → env.linkFirst = true) ∧
        self._checkTime < subU32 env.now self._lastCheck) →
      (loop lib self env).bot._lastCheck = env.now ∧
      (loop lib self env).written = (_getUpdates lib self env.client).written) := by
  refine ⟨?_, ?_, ?_⟩
  · intro h
    by_cases h1 : (self._autoReconnect && !env.linkFirst) = true
    · obtain ⟨a, b, c, _⟩ := loop_link_down_quiet lib self env h1
      exact ⟨a, b, c⟩
    · have h2 : env.linkSecond = false := by
        rcases h with ⟨ha, hf⟩ | h
        · exact absurd (by simp [ha, hf]) h1
        · exact h
      rw [loop_idle lib self env h1 (Or.inl h2)]
      exact ⟨rfl, rfl, rfl⟩
  · intro h
    apply loop_active lib self env
    · intro heq
      rw [heq] at h
      simp at h
    · rintro ⟨a, b, c, d⟩
      unfold lastUpdate at h
      rcases h with h | h | h | h
      · exact h a
      · exact h b
      · exact h c
      · exact h d
  · rintro ⟨h1, h2, h3⟩
    have hc : ¬ (self._autoReconnect && !env.linkFirst) = true := by
      cases ha : self._autoReconnect with
      | false => simp
      | true => simp [h2 ha]
    unfold loop
    rw [if_neg hc, if_pos h1, if_pos h3]
    dsimp only
    split_ifs <;> (try split) <;> simp

/-- Witness of C15: with the link down nothing is polled; with the link up
and the interval passed the request is written and the handler is called. -/
theorem loop_polls_only_with_link_up_witness :
    (loop sampleJson commandBot (tickDown 5000)).written = [] ∧
    (loop sampleJson commandBot (tickDown 5000)).calls = [] ∧
    lastUpdate (loop sampleJson commandBot (tickDown 5000)).bot = lastUpdate commandBot ∧
    (loop sampleJson commandBot (tickUp 5000 ⟨true, httpReply pollBody⟩)).written ≠ [] ∧
    (tickUp 5000 ⟨true, httpReply pollBody⟩).linkSecond = true ∧
    commandBot._checkTime < subU32 5000 commandBot._lastCheck :=
  ⟨((loop_polls_only_with_link_up sampleJson commandBot (tickDown 5000)).1 (Or.inr rfl)).1,
   ((loop_polls_only_with_link_up sampleJson commandBot (tickDown 5000)).1 (Or.inr rfl)).2.1,
   ((loop_polls_only_with_link_up sampleJson commandBot (tickDown 5000)).1 (Or.inr rfl)).2.2,
   by decide,
   ((loop_polls_only_with_link_up sampleJson commandBot
      (tickUp 5000 ⟨true, httpReply pollBody⟩)).2.1 (Or.inl (by decide))).1,
   ((loop_polls_only_with_link_up sampleJson commandBot
      (tickUp 5000 ⟨true, httpReply pollBody⟩)).2.1 (Or.inl (by decide))).2.2⟩

/-! ### Outbound operations and the error description -/

/-- C11 evaluated on the code: no outbound operation writes `_error`, so
`lastError()` after it is what it was before, failure or not.  From the new
object, whose description is empty, each of the four failures (refused
connection, timeout without data, undecodable body, `ok` false) makes every
one of the eight operations return false and leaves `lastError()` empty. -/
theorem outbound_failure_leaves_lastError_unchanged :
    (∀ (lib : ArduinoJson) (self : TeleBot) (client : Client) (chat_id msg_id : Int)
        (text parse keys action inline_id url caption lat lon : Str),
      lastError (send lib self client chat_id text parse keys).bot = lastError self ∧
      lastError (edit lib self client chat_id msg_id text keys).bot = lastError self ∧
      lastError (del lib self client chat_id msg_id).bot = lastError self ∧
      lastError (answer lib self client inline_id text).bot = lastError self ∧
      lastError (photo lib self client chat_id url caption).bot = lastError self ∧
      lastError (document lib self client chat_id url caption).bot = lastError self ∧
      lastError (location lib self client chat_id lat lon).bot = lastError self ∧
      lastError (sendChat lib self client chat_id action).bot = lastError self) ∧
    lastError sampleBot = [] ∧
    (∀ client ∈ failingClients,
      (send replyJson sampleBot client 42 (ascii "hi") [] []).ok = false ∧
      lastError (send replyJson sampleBot client 42 (ascii "hi") [] []).bot = [] ∧
      (edit replyJson sampleBot client 42 9 (ascii "hi") []).ok = false ∧
      lastError (edit replyJson sampleBot client 42 9 (ascii "hi") []).bot = [] ∧
      (del replyJson sampleBot client 42 9).ok = false ∧
      lastError (del replyJson sampleBot client 42 9).bot = [] ∧
      (answer replyJson sampleBot client (ascii "q1") []).ok = false ∧
      lastError (answer replyJson sampleBot client (ascii "q1") []).bot = [] ∧
      (photo replyJson sampleBot client 42 (ascii "http://x/p.png") []).ok = false ∧
      lastError (photo replyJson sampleBot client 42 (ascii "http://x/p.png") []).bot = [] ∧
      (document replyJson sampleBot client 42 (ascii "http://x/d.pdf") []).ok = false ∧
      lastError (document replyJson sampleBot client 42 (ascii "http://x/d.pdf") []).bot = [] ∧
      (location replyJson sampleBot client 42 (ascii "1.000000") (ascii "2.000000")).ok = false ∧
      lastError (location replyJson sampleBot client 42 (ascii "1.000000")
        (ascii "2.000000")).bot = [] ∧
      (sendChat replyJson sampleBot client 42 (ascii "typing")).ok = false ∧
      lastError (sendChat replyJson sampleBot client 42 (ascii "typing")).bot = []) ∧
    (send replyJson sampleBot ⟨true, httpReply (ascii "\x7b\"ok\":true\x7d")⟩ 42 (ascii "hi")
      [] []).ok = true := by
  refine ⟨?_, by decide, by decide, by decide⟩
  intros
  exact ⟨rfl, rfl, rfl, rfl, rfl, rfl, rfl, rfl⟩

/-! ### Decode failure of a polled body -/

theorem loop_decode_failure (lib : ArduinoJson) (self : TeleBot) (env : Tick) (e : Str)
    (hlink : env.linkSecond = true ∧ (self._autoReconnect = true → env.linkFirst = true))
    (htime : self._checkTime < subU32 env.now self._lastCheck)
    (hbody : (_getUpdates lib self env.client).response ≠ [])
    (herr : lib.deserializeJson MAX_MSG_SIZE (_getUpdates lib self env.client).response
      = Except.error e) :
    (loop lib self env).calls = [] ∧
    lastError (loop lib self env).bot
      = if self._debug then ascii "JSON error: " ++ e else lastError self := by
  have hc : ¬ (self._autoReconnect && !env.linkFirst) = true := by
    cases ha : self._autoReconnect with
    | false => simp
    | true => simp [hlink.2 ha]
  have hlen : (_getUpdates lib self env.client).response.length > 0 :=
    List.length_pos.mpr hbody
  have hdbg : (_getUpdates lib self env.client).bot._debug = self._debug := by
    rw [getUpdates_frame]
  have herr0 : (_getUpdates lib self env.client).bot._error = self._error := by
    rw [getUpdates_frame]
  unfold loop lastError
  rw [if_neg hc, if_pos hlink.1, if_pos htime]
  dsimp only
  rw [if_pos hlen, herr]
  dsimp only
  rw [hdbg]
  cases hd : self._debug with
  | false => simp [herr0]
  | true => simp

/-- C12 evaluated on the code: a tick polls, the body "<html>502</html>" is
not empty and fails to decode.  No handler is called.  With the debug flag off
`lastError()` stays empty: the assignment of "JSON error: ..." sits in the
branch `else if (_debug)`.  With the debug flag on it is
"JSON error: InvalidInput". -/
theorem loop_decode_failure_silent_without_debug :
    commandBot._debug = false ∧ lastError commandBot = [] ∧
    (loop sampleJson commandBot (tickUp 5000 htmlClient)).written ≠ [] ∧
    (_getUpdates sampleJson commandBot htmlClient).response = ascii "<html>502</html>" ∧
    sampleJson.deserializeJson MAX_MSG_SIZE (ascii "<html>502</html>")
      = Except.error (ascii "InvalidInput") ∧
    (loop sampleJson commandBot (tickUp 5000 htmlClient)).calls = [] ∧
    lastError (loop sampleJson commandBot (tickUp 5000 htmlClient)).bot = [] ∧
    (loop sampleJson { commandBot with _debug := true } (tickUp 5000 htmlClient)).calls = [] ∧
    lastError (loop sampleJson { commandBot with _debug := true } (tickUp 5000 htmlClient)).bot
      = ascii "JSON error: InvalidInput" := by
  refine ⟨by decide, by decide, by decide, by decide, by rfl, by decide, by decide, by decide,
    by decide⟩

/-! ### Dispatch and the cursor -/

theorem loop_polled_cursor (lib : ArduinoJson) (self : TeleBot) (env : Tick)
    (hlink : env.linkSecond = true ∧ (self._autoReconnect = true → env.linkFirst = true))
    (htime : self._checkTime < subU32 env.now self._lastCheck) :
    (loop lib self env).bot._lastID = (_getUpdates lib self env.client).bot._lastID := by
  have hc : ¬ (self._autoReconnect && !env.linkFirst) = true := by
    cases ha : self._autoReconnect with
    | false => simp
    | true => simp [hlink.2 ha]
  unfold loop
  rw [if_neg hc, if_pos hlink.1, if_pos htime]
  dsimp only
  split_ifs <;> (try split) <;> simp

theorem loop_dispatched_ids_le_cursor_when_small_decode_succeeds (lib : ArduinoJson)
    (self : TeleBot) (env : Tick) (doc : Json)
    (hlink : env.linkSecond = true ∧ (self._autoReconnect = true → env.linkFirst = true))
    (htime : self._checkTime < subU32 env.now self._lastCheck)
    (hconn : env.client.connect = true)
    (hsmall : lib.deserializeJson 1024 (readBody [] env.client.incoming) = Except.ok doc) :
    ∀ id ∈ updateIds lib doc, id ≤ lastUpdate (loop lib self env).bot := by
  intro id hid
  have hcur : (_getUpdates lib self env.client).bot._lastID
      = (updateIds lib doc).foldl max self._lastID := by
    simp only [_getUpdates, hconn, if_true, hsmall, foldl_cursorStep, updateIds]
  unfold lastUpdate
  rw [loop_polled_cursor lib self env hlink htime, hcur]
  exact mem_le_foldl_max _ _ id hid

/-- C16 evaluated on the code: a poll body with ten short message updates,
ids 7 to 16, needs 1207 bytes of document.  The decode of `_getUpdates` into
1024 bytes fails, so the cursor stays at 6; the decode of `loop()` into 4096
bytes succeeds, so the ten updates are dispatched.  Every dispatched update
has an id above `lastUpdate()` after the tick, the next poll asks again for
offset 7, and the next tick dispatches the same ten updates a second time. -/
theorem loop_dispatches_updates_above_cursor :
    lastUpdate commandBot = 6 ∧
    1024 < memoryUsage batchDoc ∧ memoryUsage batchDoc ≤ MAX_MSG_SIZE ∧
    batchJson.deserializeJson 1024 batchBody = Except.error (ascii "NoMemory") ∧
    batchJson.deserializeJson MAX_MSG_SIZE batchBody = Except.ok batchDoc ∧
    updateIds batchJson batchDoc = [7, 8, 9, 10, 11, 12, 13, 14, 15, 16] ∧
    (loop batchJson commandBot (batchTick 5000)).calls.map (fun c => (c.site, c.fn, c.msg.msg_id))
      = [7, 8, 9, 10, 11, 12, 13, 14, 15, 16].map (fun n => (Site.message, 103, n)) ∧
    lastUpdate (loop batchJson commandBot (batchTick 5000)).bot = 6 ∧
    (∀ id ∈ updateIds batchJson batchDoc,
      ¬ id ≤ lastUpdate (loop batchJson commandBot (batchTick 5000)).bot) ∧
    getUpdatesUrl (loop batchJson commandBot (batchTick 5000)).bot
      = ascii "/bot123:abc/getUpdates?timeout=5&offset=7" ∧
    (runLoop batchJson commandBot [batchTick 5000, batchTick 7000]).map
        (fun call => (call.2.calls.map (fun c => c.msg.msg_id), lastUpdate call.2.bot))
      = [([7, 8, 9, 10, 11, 12, 13, 14, 15, 16], 6), ([7, 8, 9, 10, 11, 12, 13, 14, 15, 16], 6)] := by
  refine ⟨by decide, by decide, by decide, by rfl, by rfl, by decide, by decide, by decide,
    by decide, by decide, by decide⟩

end TelegramESP
